import Mathlib

/-!
# Verification of the portfolio backend's contact / subscription / blog / event logic

Shallow embedding of the JavaScript source (Express + Mongoose controllers,
routes and schema hooks) of the portfolio backend.  Documents are modelled as
Lean structures, collections as lists, and each route handler as a pure
function from a state and a request body to a response and a new state.
Timestamps are abstract `Nat` ticks supplied as a `now` parameter where the
source calls `new Date()`.  Fields irrelevant to every claim (e.g. image
galleries, agenda entries) are omitted from the structures; every field that a
modelled handler reads or writes is present.
-/

namespace Portfolio

/-- HTTP-level outcome of a handler: status code plus the `success` boolean of
the JSON envelope. -/
structure ApiResponse where
  status : Nat
  success : Bool
deriving Repr, DecidableEq

/-- JavaScript truthiness of an optional string value: `none` models an
absent/`null`/`undefined` field, `some ""` an empty string (falsy), any other
string is truthy. -/
def jsTruthy : Option String → Bool
  | none => false
  | some s => s ≠ ""

/-- `.toLowerCase()` on a string, character by character (ASCII case
mapping, which covers every string the handlers deal with). -/
def jsToLowerCase (s : String) : String :=
  String.mk (s.toList.map Char.toLower)

/-- `if (v) target = v` on a string field: overwrite `cur` only when the
supplied value is truthy. -/
def jsOverwrite (cur : String) (v : Option String) : String :=
  match v with
  | none => cur
  | some s => if s = "" then cur else s

/-! ## Contact (src/unnamed/part_005 `contactSchema`, src/controllers/contactController.js) -/

/-- A document of the `Contact` collection (`contactSchema`).  `adminNotes`
uses `""` for the unset state.  `status` ranges over
`pending/review/worked/done/rejected`, `priority` over
`low/medium/high/urgent`; both are kept as strings as in the schema. -/
structure Contact where
  name : String
  email : String
  mobile : Option String
  subject : String
  message : String
  status : String
  priority : String
  adminNotes : String
  emailSent : Bool
  emailSentAt : Option Nat
  respondedAt : Option Nat
  completedAt : Option Nat
deriving Repr, DecidableEq

/-- Body of `PATCH /api/contact/:id`: the three fields the controller reads.
`none` models an absent or otherwise falsy non-string value. -/
structure ContactPatchBody where
  status : Option String
  adminNotes : Option String
  priority : Option String
deriving Repr, DecidableEq

/-- `exports.updateContact` (src/controllers/contactController.js lines 44-57),
the part between `findById` and `save`:
`if (req.body.status) contact.status = req.body.status;` and likewise for
`adminNotes` and `priority`.  No other field is touched. -/
def updateContact (c : Contact) (b : ContactPatchBody) : Contact :=
  { c with
    status := jsOverwrite c.status b.status
    adminNotes := jsOverwrite c.adminNotes b.adminNotes
    priority := jsOverwrite c.priority b.priority }

/-- `contactSchema.methods.updateStatus` (src/unnamed/part_005 lines 272-283):
sets the status and stamps `respondedAt` on `review`, `completedAt` on
`done`.  Defined from the model file; no route of the repository invokes it. -/
def Contact.updateStatus (c : Contact) (newStatus : String) (now : Nat) : Contact :=
  let c1 := { c with status := newStatus }
  if newStatus = "review" then { c1 with respondedAt := some now }
  else if newStatus = "done" then { c1 with completedAt := some now }
  else c1

/-- Body of `POST /api/contact` after the express-validator middleware
(name/email/subject/message non-empty, email well-formed) has accepted it. -/
structure ContactCreateBody where
  name : String
  email : String
  mobile : Option String
  subject : String
  message : String
deriving Repr, DecidableEq

/-- `new Contact(req.body)` with the schema defaults
(`status: 'pending'`, `priority: 'medium'`, `emailSent: false`) and the
schema's `lowercase: true` on `email`. -/
def contactOfBody (b : ContactCreateBody) : Contact :=
  { name := b.name
    email := jsToLowerCase b.email
    mobile := b.mobile
    subject := b.subject
    message := b.message
    status := "pending"
    priority := "medium"
    adminNotes := ""
    emailSent := false
    emailSentAt := none
    respondedAt := none
    completedAt := none }

/-- `exports.createContact` (src/controllers/contactController.js lines 5-23)
after validation: save the contact, `await` the two email sends, and on email
success save again with `emailSent`/`emailSentAt` set.  `emailOk` is the
outcome of the awaited `emailService.sendContactNotification` /
`sendContactConfirmation` calls, which rethrow on failure
(src/utils/emailService.js), so a failure lands in the `catch` block and
yields a 500 response while the first `save` has already persisted the
contact. -/
def createContact (contacts : List Contact) (b : ContactCreateBody) (now : Nat)
    (emailOk : Bool) : ApiResponse × List Contact :=
  let c := contactOfBody b
  if emailOk then
    let c2 := { c with emailSent := true, emailSentAt := some now }
    (⟨201, true⟩, contacts ++ [c2])
  else
    (⟨500, false⟩, contacts ++ [c])

/-! ## Claim C1: PATCH status updates and the timestamp fields -/

/-- C1, counterexample.  The claim says a PATCH update setting
`status = 'review'` stamps `respondedAt`.  On a concrete contact with
`respondedAt = none`, `updateContact` with `status = 'review'` sets the status
but leaves `respondedAt` (and `completedAt`) at `none`: no timestamp is ever
stamped, because the controller assigns `contact.status` directly and never
calls the model's `updateStatus` method. -/
theorem contact_patch_review_no_stamp_cex :
    (updateContact
      { name := "a", email := "a@x.com", mobile := none, subject := "s",
        message := "m", status := "pending", priority := "medium",
        adminNotes := "", emailSent := false, emailSentAt := none,
        respondedAt := none, completedAt := none }
      { status := some "review", adminNotes := none, priority := none }).status = "review"
    ∧ (updateContact
      { name := "a", email := "a@x.com", mobile := none, subject := "s",
        message := "m", status := "pending", priority := "medium",
        adminNotes := "", emailSent := false, emailSentAt := none,
        respondedAt := none, completedAt := none }
      { status := some "review", adminNotes := none, priority := none }).respondedAt = none
    ∧ (updateContact
      { name := "a", email := "a@x.com", mobile := none, subject := "s",
        message := "m", status := "pending", priority := "medium",
        adminNotes := "", emailSent := false, emailSentAt := none,
        respondedAt := none, completedAt := none }
      { status := some "done", adminNotes := none, priority := none }).completedAt = none := by
  refine ⟨rfl, rfl, rfl⟩

/-- C1, amended.  The PATCH update leaves `respondedAt` and `completedAt`
unchanged for every contact and every body (in particular for
`status = 'review'` and `status = 'done'`); the stamping behaviour exists only
in the model method `updateStatus`, which does stamp `respondedAt` on
`review` and `completedAt` on `done` but is invoked by no route. -/
theorem contact_patch_timestamps_amended (c : Contact) (b : ContactPatchBody)
    (now : Nat) (st : String) :
    (updateContact c b).respondedAt = c.respondedAt
    ∧ (updateContact c b).completedAt = c.completedAt
    ∧ (c.updateStatus "review" now).respondedAt = some now
    ∧ (c.updateStatus "done" now).completedAt = some now
    ∧ (st ≠ "review" → (c.updateStatus st now).respondedAt = c.respondedAt)
    ∧ (st ≠ "done" → (c.updateStatus st now).completedAt = c.completedAt) := by
  refine ⟨rfl, rfl, rfl, rfl, ?_, ?_⟩
  · intro h
    by_cases h2 : st = "done" <;> simp [Contact.updateStatus, h, h2]
  · intro h
    by_cases h2 : st = "review" <;> simp [Contact.updateStatus, h, h2]

/-- Witness for `contact_patch_timestamps_amended` at a concrete contact,
body, time and status, discharging the two inner hypotheses. -/
theorem contact_patch_timestamps_amended_witness :
    (updateContact
      { name := "a", email := "a@x.com", mobile := none, subject := "s",
        message := "m", status := "pending", priority := "medium",
        adminNotes := "", emailSent := false, emailSentAt := none,
        respondedAt := none, completedAt := none }
      { status := some "worked", adminNotes := none, priority := none }).respondedAt = none
    ∧ (Contact.updateStatus
      { name := "a", email := "a@x.com", mobile := none, subject := "s",
        message := "m", status := "pending", priority := "medium",
        adminNotes := "", emailSent := false, emailSentAt := none,
        respondedAt := none, completedAt := none } "review" 7).respondedAt = some 7 := by
  have h := contact_patch_timestamps_amended
    { name := "a", email := "a@x.com", mobile := none, subject := "s",
      message := "m", status := "pending", priority := "medium",
      adminNotes := "", emailSent := false, emailSentAt := none,
      respondedAt := none, completedAt := none }
    { status := some "worked", adminNotes := none, priority := none } 7 "worked"
  exact ⟨h.1, h.2.2.1⟩

/-! ## Claim C10: the PATCH frame and falsy-field behaviour -/

/-- C10.  A PATCH update can change only `status`, `adminNotes` and
`priority`; every other field of the contact is returned unchanged.  A
supplied field that is falsy (absent, `null`, or the empty string) is
ignored, and consequently `adminNotes` is empty after the update exactly when
it was empty before: the operation can never clear it. -/
theorem contact_patch_frame (c : Contact) (b : ContactPatchBody) :
    (updateContact c b).name = c.name
    ∧ (updateContact c b).email = c.email
    ∧ (updateContact c b).mobile = c.mobile
    ∧ (updateContact c b).subject = c.subject
    ∧ (updateContact c b).message = c.message
    ∧ (updateContact c b).emailSent = c.emailSent
    ∧ (updateContact c b).emailSentAt = c.emailSentAt
    ∧ (updateContact c b).respondedAt = c.respondedAt
    ∧ (updateContact c b).completedAt = c.completedAt
    ∧ (b.status = none ∨ b.status = some "" → (updateContact c b).status = c.status)
    ∧ (b.adminNotes = none ∨ b.adminNotes = some "" →
        (updateContact c b).adminNotes = c.adminNotes)
    ∧ (b.priority = none ∨ b.priority = some "" →
        (updateContact c b).priority = c.priority)
    ∧ ((updateContact c b).adminNotes = "" → c.adminNotes = "") := by
  refine ⟨rfl, rfl, rfl, rfl, rfl, rfl, rfl, rfl, rfl, ?_, ?_, ?_, ?_⟩
  · rintro (h | h) <;> simp [updateContact, jsOverwrite, h]
  · rintro (h | h) <;> simp [updateContact, jsOverwrite, h]
  · rintro (h | h) <;> simp [updateContact, jsOverwrite, h]
  · intro h
    cases hb : b.adminNotes with
    | none =>
      simp only [updateContact, jsOverwrite, hb] at h
      exact h
    | some s =>
      by_cases he : s = ""
      · simp only [updateContact, jsOverwrite, hb, he, if_pos] at h
        exact h
      · exfalso
        apply he
        simp only [updateContact, jsOverwrite, hb] at h
        rw [if_neg he] at h
        exact h

/-- Witness for `contact_patch_frame` at a concrete contact and body,
discharging the falsy-field hypotheses. -/
theorem contact_patch_frame_witness :
    (updateContact
      { name := "a", email := "a@x.com", mobile := none, subject := "s",
        message := "m", status := "pending", priority := "medium",
        adminNotes := "note", emailSent := false, emailSentAt := none,
        respondedAt := none, completedAt := none }
      { status := none, adminNotes := some "", priority := none }).adminNotes = "note" := by
  have h := contact_patch_frame
    { name := "a", email := "a@x.com", mobile := none, subject := "s",
      message := "m", status := "pending", priority := "medium",
      adminNotes := "note", emailSent := false, emailSentAt := none,
      respondedAt := none, completedAt := none }
    { status := none, adminNotes := some "", priority := none }
  exact h.2.2.2.2.2.2.2.2.2.2.1 (Or.inr rfl)

/-! ## Subscription (src/unnamed/part_006 `subscriptionSchema`,
src/controllers/subscriptionController.js) -/

/-- A document of the `Subscription` collection.  The schema's pre-save hook
lowercases `email`; `unsubscribedReason` uses `""` for the unset state.
`status` ranges over `active/inactive/unsubscribed`.  The `preferences`,
`lastEmailSent` and `emailCount` fields are untouched by every modelled
operation and are omitted. -/
structure Subscription where
  id : Nat
  email : String
  firstName : Option String
  lastName : Option String
  status : String
  source : String
  unsubscribedAt : Option Nat
  unsubscribedReason : String
deriving Repr, DecidableEq

/-- The `Subscription` collection together with the id supply. -/
structure SubState where
  subs : List Subscription
  nextId : Nat
deriving Repr, DecidableEq

/-- Body of `POST /api/subscription` after the `isEmail` validator accepted
it. -/
structure SubBody where
  email : String
  firstName : Option String
  lastName : Option String
  source : Option String
deriving Repr, DecidableEq

/-- `exports.createSubscription` (src/controllers/subscriptionController.js
lines 5-34) after validation: look up by the lower-cased email; an existing
`active` record is a 409 conflict; an existing non-active record is flipped
back to `active` in place with the unsubscribe metadata cleared; otherwise a
new record is created (`source: req.body.source || 'footer'`, schema default
`status: 'active'`, pre-save lowercasing of the email).  The welcome email is
awaited after the save; `emailOk = false` models a send failure, which the
`catch` turns into a 500 response while the save has already persisted. -/
def createSubscription (s : SubState) (b : SubBody) (emailOk : Bool) :
    ApiResponse × SubState :=
  match s.subs.find? (fun x => x.email == jsToLowerCase b.email) with
  | some sub =>
    if sub.status = "active" then (⟨409, false⟩, s)
    else
      let sub' := { sub with status := "active", unsubscribedAt := none,
                             unsubscribedReason := "" }
      let s' : SubState :=
        { s with subs := s.subs.map (fun x => if x.id = sub.id then sub' else x) }
      if emailOk then (⟨201, true⟩, s') else (⟨500, false⟩, s')
  | none =>
    let sub : Subscription :=
      { id := s.nextId, email := jsToLowerCase b.email, firstName := b.firstName,
        lastName := b.lastName, status := "active",
        source := jsOverwrite "footer" b.source,
        unsubscribedAt := none, unsubscribedReason := "" }
    let s' : SubState := { subs := s.subs ++ [sub], nextId := s.nextId + 1 }
    if emailOk then (⟨201, true⟩, s') else (⟨500, false⟩, s')

/-- Number of stored subscription records whose email equals `k`. -/
def subEmailCount (s : SubState) (k : String) : Nat :=
  (s.subs.filter (fun x => x.email == k)).length

/-- Filtering a mapped list where the map leaves the predicate unchanged on
every member keeps the filter length. -/
theorem length_filter_map_of_pred_eq {α : Type} (f : α → α) (p : α → Bool)
    (l : List α) (h : ∀ x ∈ l, p (f x) = p x) :
    ((l.map f).filter p).length = (l.filter p).length := by
  induction l with
  | nil => rfl
  | cons a t ih =>
    have ha' := h a (by simp)
    have ih' := ih (fun x hx => h x (by simp [hx]))
    by_cases ha : p a = true
    · simp [List.filter_cons, ha', ha, ih']
    · simp only [Bool.not_eq_true] at ha
      simp [List.filter_cons, ha', ha, ih']

/-! ## Claim C5: duplicate-subscription handling -/

/-- C5.  Subscribing with an email whose normalization matches a stored
`active` record is a 409 conflict leaving the state untouched.  When the
matched record is not active, that same record (same id, same email) is set
back to `active` with the unsubscribe metadata cleared, the collection keeps
its length, and every other record is untouched.  In every case, a
normalized email that had at most one record still has at most one record:
no duplicate is ever created.  `hids` is the document-store guarantee that
ids (`_id`) are unique. -/
theorem subscribe_spec (s : SubState) (b : SubBody) (emailOk : Bool)
    (hids : (s.subs.map (fun x => x.id)).Nodup) :
    (∀ sub, s.subs.find? (fun x => x.email == jsToLowerCase b.email) = some sub →
      (sub.status = "active" →
        (createSubscription s b emailOk).1.status = 409
        ∧ (createSubscription s b emailOk).2 = s)
      ∧ (sub.status ≠ "active" →
        (createSubscription s b emailOk).2.subs.length = s.subs.length
        ∧ ({ sub with
             status := "active", unsubscribedAt := none,
             unsubscribedReason := "" } : Subscription)
            ∈ (createSubscription s b emailOk).2.subs
        ∧ (∀ x ∈ s.subs, x.id ≠ sub.id →
            x ∈ (createSubscription s b emailOk).2.subs)))
    ∧ (∀ k, subEmailCount s k ≤ 1 →
        subEmailCount (createSubscription s b emailOk).2 k ≤ 1) := by
  constructor
  · intro sub hfind
    constructor
    · intro hact
      simp [createSubscription, hfind, hact]
    · intro hact
      have hmem : sub ∈ s.subs := List.mem_of_find?_eq_some hfind
      refine ⟨?_, ?_, ?_⟩
      · simp [createSubscription, hfind, hact]
        cases emailOk <;> simp
      · have : ({ sub with
                  status := "active", unsubscribedAt := none,
                  unsubscribedReason := "" } : Subscription)
            ∈ s.subs.map (fun x =>
              if x.id = sub.id then
                { sub with
                  status := "active", unsubscribedAt := none,
                  unsubscribedReason := "" }
              else x) := by
          refine List.mem_map.mpr ⟨sub, hmem, by simp⟩
        simp only [createSubscription, hfind, hact]
        cases emailOk <;> simpa using this
      · intro x hx hne
        have : x ∈ s.subs.map (fun y =>
            if y.id = sub.id then
              { sub with
                status := "active", unsubscribedAt := none,
                unsubscribedReason := "" }
            else y) := by
          refine List.mem_map.mpr ⟨x, hx, by simp [hne]⟩
        simp only [createSubscription, hfind, hact]
        cases emailOk <;> simpa using this
  · intro k hk
    cases hfind : s.subs.find? (fun x => x.email == jsToLowerCase b.email) with
    | some sub =>
      by_cases hact : sub.status = "active"
      · simpa [createSubscription, hfind, hact, subEmailCount] using hk
      · have hmem : sub ∈ s.subs := List.mem_of_find?_eq_some hfind
        have hlen : subEmailCount (createSubscription s b emailOk).2 k
            = subEmailCount s k := by
          simp only [createSubscription, hfind, hact, if_neg hact, subEmailCount]
          cases emailOk <;>
            simpa using length_filter_map_of_pred_eq _ _ s.subs (by
              intro x hx
              by_cases hid : x.id = sub.id
              · have hxsub : x = sub :=
                  List.inj_on_of_nodup_map hids hx hmem hid
                subst hxsub
                simp [hid]
              · simp [hid])
        omega
    | none =>
      have hnone : ∀ x ∈ s.subs, ¬ (x.email == jsToLowerCase b.email) = true := by
        intro x hx
        exact List.find?_eq_none.mp hfind x hx
      by_cases hkey : (jsToLowerCase b.email == k) = true
      · have hzero : subEmailCount s k = 0 := by
          simp only [subEmailCount, List.length_eq_zero, List.filter_eq_nil_iff]
          intro x hx
          have := hnone x hx
          simp only [beq_iff_eq] at this ⊢
          simp only [beq_iff_eq] at hkey
          rw [hkey] at this
          exact this
        have : subEmailCount (createSubscription s b emailOk).2 k
            = subEmailCount s k + 1 := by
          simp only [createSubscription, hfind, subEmailCount]
          cases emailOk <;> simp [List.filter_append, hkey]
        omega
      · have : subEmailCount (createSubscription s b emailOk).2 k
            = subEmailCount s k := by
          simp only [createSubscription, hfind, subEmailCount]
          cases emailOk <;> simp [List.filter_append, hkey]
        omega

/-- Witness for `subscribe_spec` on a concrete one-record state: the stored
unsubscribed record for `a@x.com` is reactivated in place and the collection
still holds one record for that email. -/
theorem subscribe_spec_witness :
    (createSubscription
      { subs := [{ id := 0, email := "a@x.com", firstName := none,
                   lastName := none, status := "unsubscribed",
                   unsubscribedAt := some 3, unsubscribedReason := "busy",
                   source := "footer" }], nextId := 1 }
      { email := "a@x.com", firstName := none, lastName := none,
        source := none } true).2.subs.length = 1
    ∧ subEmailCount (createSubscription
      { subs := [{ id := 0, email := "a@x.com", firstName := none,
                   lastName := none, status := "unsubscribed",
                   unsubscribedAt := some 3, unsubscribedReason := "busy",
                   source := "footer" }], nextId := 1 }
      { email := "a@x.com", firstName := none, lastName := none,
        source := none } true).2 "a@x.com" ≤ 1 := by
  have h := subscribe_spec
    { subs := [{ id := 0, email := "a@x.com", firstName := none,
                 lastName := none, status := "unsubscribed",
                 unsubscribedAt := some 3, unsubscribedReason := "busy",
                 source := "footer" }], nextId := 1 }
    { email := "a@x.com", firstName := none, lastName := none,
      source := none } true (by decide)
  refine ⟨((h.1
    { id := 0, email := "a@x.com", firstName := none,
      lastName := none, status := "unsubscribed",
      unsubscribedAt := some 3, unsubscribedReason := "busy",
      source := "footer" } (by decide)).2 (by decide)).1,
    h.2 "a@x.com" (by decide)⟩

/-! ## Claim C3: email failure versus request outcome -/

/-- C3, counterexample.  A concrete contact submission whose (awaited) email
send fails is answered with a 500 error response, not success — even though
the contact document itself was persisted by the first `save`.  The claim
that an email-send failure never turns the request into an error response is
therefore false. -/
theorem email_failure_500_cex :
    (createContact []
      { name := "a", email := "a@x.com", mobile := none, subject := "s",
        message := "m" } 5 false).1.status = 500
    ∧ (createContact []
      { name := "a", email := "a@x.com", mobile := none, subject := "s",
        message := "m" } 5 false).1.success = false
    ∧ (createContact []
      { name := "a", email := "a@x.com", mobile := none, subject := "s",
        message := "m" } 5 false).2.length = 1 := by
  refine ⟨rfl, rfl, rfl⟩

/-- C3, amended.  The persistence effect of contact and subscription creation
is independent of the email outcome — the record is saved either way — but
the handlers `await` the email sends inside their `try` blocks and
`emailService` rethrows, so an email failure yields a 500 error response
where success would have yielded 201 (a conflict is answered 409 before any
email is attempted, independently of the email outcome). -/
theorem email_failure_behavior (contacts : List Contact)
    (b : ContactCreateBody) (now : Nat) (s : SubState) (sb : SubBody) :
    (createContact contacts b now false).1 = ⟨500, false⟩
    ∧ contactOfBody b ∈ (createContact contacts b now false).2
    ∧ (createContact contacts b now true).1 = ⟨201, true⟩
    ∧ (createSubscription s sb true).2 = (createSubscription s sb false).2
    ∧ ((createSubscription s sb true).1.status = 409 →
        (createSubscription s sb false).1.status = 409)
    ∧ ((createSubscription s sb true).1.status = 201 →
        (createSubscription s sb false).1.status = 500) := by
  refine ⟨rfl, by simp [createContact], rfl, ?_, ?_, ?_⟩
  · simp only [createSubscription]
    cases hfind : s.subs.find? (fun x => x.email == jsToLowerCase sb.email) with
    | some sub => by_cases hact : sub.status = "active" <;> simp [hact]
    | none => simp
  · simp only [createSubscription]
    cases hfind : s.subs.find? (fun x => x.email == jsToLowerCase sb.email) with
    | some sub => by_cases hact : sub.status = "active" <;> simp [hact]
    | none => simp
  · simp only [createSubscription]
    cases hfind : s.subs.find? (fun x => x.email == jsToLowerCase sb.email) with
    | some sub => by_cases hact : sub.status = "active" <;> simp [hact]
    | none => simp

/-- Witness for `email_failure_behavior` at concrete inputs, discharging the
two response-implication hypotheses on a state where subscribing succeeds. -/
theorem email_failure_behavior_witness :
    (createContact []
      { name := "a", email := "a@x.com", mobile := none, subject := "s",
        message := "m" } 5 true).1 = ⟨201, true⟩
    ∧ (createSubscription { subs := [], nextId := 0 }
        { email := "a@x.com", firstName := none, lastName := none,
          source := none } false).1.status = 500 := by
  have h := email_failure_behavior []
    { name := "a", email := "a@x.com", mobile := none, subject := "s",
      message := "m" } 5 { subs := [], nextId := 0 }
    { email := "a@x.com", firstName := none, lastName := none, source := none }
  exact ⟨h.2.2.1, h.2.2.2.2.2 (by decide)⟩

/-! ## Event + registration (src/unnamed/part_006 `eventSchema`,
src/models/EventRegistration.js, src/routes/event.js) -/

/-- A document of the `Event` collection.  `currentAttendees` is an `Int`
because the delete-registration route applies an unconditional
`$inc: { currentAttendees: -1 }` with no validator, so non-negativity is a
property to prove, not a typing assumption.  Fields not read or written by
the registration routes (description, price, agenda, ...) are omitted. -/
structure Event where
  id : Nat
  title : String
  slug : String
  published : Bool
  publishedAt : Option Nat
  featured : Bool
  maxAttendees : Nat
  currentAttendees : Int
deriving Repr, DecidableEq

/-- A document of the `EventRegistration` collection
(src/models/EventRegistration.js); the schema lowercases `email` and the
collection has a unique index on `(eventId, email)`. -/
structure EventRegistration where
  id : Nat
  eventId : Nat
  fullName : String
  email : String
  phone : Option String
  company : Option String
  jobTitle : Option String
  notes : Option String
  status : String
deriving Repr, DecidableEq

/-- The two collections the registration routes read and write, with the id
supply for freshly inserted registrations. -/
structure EventState where
  events : List Event
  regs : List EventRegistration
  nextRegId : Nat
deriving Repr, DecidableEq

/-- Outcome of `POST /api/events/register/:eventId`, one constructor per
early-return branch of the handler. -/
inductive RegisterOutcome where
  | eventNotFound
  | notPublished
  | alreadyRegistered
  | eventFull
  | registered (r : EventRegistration)
deriving Repr, DecidableEq

/-- Body of the register route after its express-validator middleware
(`fullName` non-empty, `email` a normalized email) accepted it. -/
structure RegisterBody where
  fullName : String
  email : String
  phone : Option String
  company : Option String
  jobTitle : Option String
  notes : Option String
deriving Repr, DecidableEq

/-- `router.post('/register/:eventId')` (src/routes/event.js lines 521-612)
after validation: 404 when the event is missing, 400 when it is unpublished,
400 when a registration with the same `(eventId, email)` pair exists, 400
when `maxAttendees > 0 && currentAttendees >= maxAttendees`; otherwise the
registration is saved with `status: 'confirmed'` and the event's
`currentAttendees` is incremented by 1 and saved. -/
def registerForEvent (s : EventState) (eventId : Nat) (b : RegisterBody) :
    RegisterOutcome × EventState :=
  match s.events.find? (fun e => e.id == eventId) with
  | none => (.eventNotFound, s)
  | some ev =>
    if ev.published = false then (.notPublished, s)
    else
      match s.regs.find? (fun r =>
          r.eventId == eventId && r.email == jsToLowerCase b.email) with
      | some _ => (.alreadyRegistered, s)
      | none =>
        if 0 < ev.maxAttendees ∧ (ev.maxAttendees : Int) ≤ ev.currentAttendees then
          (.eventFull, s)
        else
          let r : EventRegistration :=
            { id := s.nextRegId, eventId := eventId, fullName := b.fullName,
              email := jsToLowerCase b.email, phone := b.phone,
              company := b.company, jobTitle := b.jobTitle, notes := b.notes,
              status := "confirmed" }
          (.registered r,
            { events := s.events.map (fun e =>
                if e.id = eventId then
                  { e with currentAttendees := e.currentAttendees + 1 }
                else e),
              regs := s.regs ++ [r],
              nextRegId := s.nextRegId + 1 })

/-- Outcome of `DELETE /api/events/admin/registrations/:id`. -/
inductive DeleteRegOutcome where
  | regNotFound
  | deleted
deriving Repr, DecidableEq

/-- `router.delete('/admin/registrations/:id')` (src/routes/event.js lines
723-755): 404 when the registration is missing; otherwise the parent event's
`currentAttendees` is decremented via `$inc: -1` (a no-op when the event no
longer exists) and the registration document is deleted. -/
def deleteRegistration (s : EventState) (rid : Nat) :
    DeleteRegOutcome × EventState :=
  match s.regs.find? (fun r => r.id == rid) with
  | none => (.regNotFound, s)
  | some r =>
    (.deleted,
      { events := s.events.map (fun e =>
          if e.id = r.eventId then
            { e with currentAttendees := e.currentAttendees - 1 }
          else e),
        regs := s.regs.filter (fun x => x.id != rid),
        nextRegId := s.nextRegId })

/-- Number of stored registrations belonging to event `eid`. -/
def regCount (s : EventState) (eid : Nat) : Nat :=
  (s.regs.filter (fun r => r.eventId == eid)).length

/-- Well-formedness guaranteed by the document store, plus the counter
invariant that ties `currentAttendees` to the number of stored
registrations: unique `_id`s in both collections, fresh ids below the
supply, and each event's counter equal to its registration count. -/
def EventWF (s : EventState) : Prop :=
  (s.events.map (fun e => e.id)).Nodup
  ∧ (s.regs.map (fun r => r.id)).Nodup
  ∧ (∀ r ∈ s.regs, r.id < s.nextRegId)
  ∧ (∀ e ∈ s.events, e.currentAttendees = (regCount s e.id : Int))

instance (s : EventState) : Decidable (EventWF s) := by
  unfold EventWF
  infer_instance

/-- Updating the events that match one id with an id-preserving function
leaves the list of event ids unchanged. -/
theorem event_ids_map_update (l : List Event) (eid : Nat) (f : Event → Event)
    (hf : ∀ e, (f e).id = e.id) :
    (l.map (fun e => if e.id = eid then f e else e)).map (fun e => e.id)
      = l.map (fun e => e.id) := by
  induction l with
  | nil => rfl
  | cons a t ih => by_cases h : a.id = eid <;> simp [h, hf, ih]

/-- Removing the unique element with a given id drops exactly one element
from any count filtered by a predicate that the removed element satisfies
or not.  `f` plays the role of `_id`. -/
theorem length_filter_remove_id {α : Type} (f : α → Nat) (p : α → Bool) :
    ∀ (l : List α) (a : α), (l.map f).Nodup → a ∈ l →
      (l.filter p).length
        = ((l.filter (fun x => f x != f a)).filter p).length
          + (if p a then 1 else 0) := by
  intro l a hnd ha
  induction l with
  | nil => cases ha
  | cons b t ih =>
    simp only [List.map_cons, List.nodup_cons] at hnd
    rcases List.mem_cons.mp ha with rfl | hat
    · have hteq : t.filter (fun x => f x != f a) = t := by
        refine List.filter_eq_self.mpr ?_
        intro x hx
        have hne : f x ≠ f a := by
          intro h
          exact hnd.1 (h ▸ List.mem_map_of_mem f hx)
        simpa using hne
      by_cases hpa : p a = true
      · simp [List.filter_cons, hpa, hteq]
      · simp only [Bool.not_eq_true] at hpa
        simp [List.filter_cons, hpa, hteq]
    · have hba : f b ≠ f a := by
        intro h
        exact hnd.1 (h ▸ List.mem_map_of_mem f hat)
      have ih' := ih hnd.2 hat
      by_cases hpb : p b = true
      · simp only [List.filter_cons, hpb, if_pos, bne_iff_ne, ne_eq, hba,
          not_false_eq_true, List.length_cons]
        simp only [List.filter_cons, hpb] at ih' ⊢
        omega
      · simp only [Bool.not_eq_true] at hpb
        simp [List.filter_cons, hpb, hba, ih']

/-- The state built by a successful registration satisfies the invariants
whenever the starting state does and the inserted registration carries the
fresh id and the target event id. -/
theorem eventWF_after_insert (s : EventState) (eid : Nat)
    (reg : EventRegistration) (h : EventWF s) (hid : reg.id = s.nextRegId)
    (hre : reg.eventId = eid) :
    EventWF
      { events := s.events.map (fun e =>
          if e.id = eid then
            { e with currentAttendees := e.currentAttendees + 1 }
          else e),
        regs := s.regs ++ [reg],
        nextRegId := s.nextRegId + 1 } := by
  obtain ⟨hev, hreg, hbound, hcount⟩ := h
  refine ⟨?_, ?_, ?_, ?_⟩
  · dsimp only
    exact (event_ids_map_update s.events eid
      (fun e => { e with currentAttendees := e.currentAttendees + 1 })
      (fun e => rfl)) ▸ hev
  · dsimp only
    simp only [List.map_append, List.map_cons, List.map_nil]
    rw [List.nodup_append]
    refine ⟨hreg, List.nodup_singleton _, ?_⟩
    intro x hx
    simp only [List.mem_map] at hx
    obtain ⟨rr, hrr, hrx⟩ := hx
    have := hbound rr hrr
    simp only [List.mem_singleton]
    omega
  · dsimp only
    intro r hr
    simp only [List.mem_append, List.mem_singleton] at hr
    rcases hr with hr | hr
    · have := hbound r hr
      omega
    · subst hr
      omega
  · dsimp only
    intro e' he'
    simp only [List.mem_map] at he'
    obtain ⟨e, he, heq⟩ := he'
    have hce := hcount e he
    simp only [regCount] at hce
    subst heq
    by_cases hide : e.id = eid
    · simp only [hide, ite_true, regCount, List.filter_append,
        List.length_append, List.filter_cons, hre, beq_self_eq_true,
        ite_true, List.filter_nil, List.length_cons, List.length_nil]
      rw [hide] at hce
      rw [hce]
      push_cast
      ring
    · simp only [hide, ite_false, regCount, List.filter_append,
        List.length_append, List.filter_cons, hre]
      have hne : (eid == e.id) = false := by
        simp only [beq_eq_false_iff_ne, ne_eq]
        exact fun hh => hide hh.symm
      simp [hne, hce]

/-- `registerForEvent` preserves the store and counter invariants. -/
theorem eventWF_register (s : EventState) (eid : Nat) (b : RegisterBody)
    (h : EventWF s) : EventWF (registerForEvent s eid b).2 := by
  unfold registerForEvent
  cases hfind : s.events.find? (fun e => e.id == eid) with
  | none => exact h
  | some ev =>
    dsimp only
    by_cases hpub : ev.published = false
    · rw [if_pos hpub]
      exact h
    · rw [if_neg hpub]
      cases hdup : s.regs.find? (fun r =>
          r.eventId == eid && r.email == jsToLowerCase b.email) with
      | some r0 => exact h
      | none =>
        by_cases hfull : 0 < ev.maxAttendees ∧ (ev.maxAttendees : Int) ≤ ev.currentAttendees
        · rw [if_pos hfull]
          exact h
        · rw [if_neg hfull]
          exact eventWF_after_insert s eid _ h rfl rfl

/-- `deleteRegistration` preserves the store and counter invariants. -/
theorem eventWF_delete (s : EventState) (rid : Nat)
    (h : EventWF s) : EventWF (deleteRegistration s rid).2 := by
  obtain ⟨hev, hreg, hbound, hcount⟩ := h
  unfold deleteRegistration
  cases hfind : s.regs.find? (fun r => r.id == rid) with
  | none => exact ⟨hev, hreg, hbound, hcount⟩
  | some r =>
    have hrmem : r ∈ s.regs := List.mem_of_find?_eq_some hfind
    have hrid : r.id = rid := by
      have := List.find?_some hfind
      simpa using this
    dsimp only
    refine ⟨?_, ?_, ?_, ?_⟩
    · exact (event_ids_map_update s.events r.eventId
        (fun e => { e with currentAttendees := e.currentAttendees - 1 })
        (fun e => rfl)) ▸ hev
    · exact List.Nodup.sublist
        ((List.filter_sublist s.regs).map (fun x => x.id)) hreg
    · intro x hx
      exact hbound x (List.mem_of_mem_filter hx)
    · intro e' he'
      simp only [List.mem_map] at he'
      obtain ⟨e, he, heq⟩ := he'
      have hce := hcount e he
      simp only [regCount] at hce
      have hcnt : ∀ x : Nat,
          (s.regs.filter (fun y => y.eventId == x)).length
            = ((s.regs.filter (fun y => y.id != rid)).filter
                (fun y => y.eventId == x)).length
              + (if (r.eventId == x) = true then 1 else 0) := by
        intro x
        have h2 := length_filter_remove_id (fun y => y.id)
          (fun y => y.eventId == x) s.regs r hreg hrmem
        dsimp only at h2
        rw [hrid] at h2
        exact h2
      subst heq
      by_cases hid : e.id = r.eventId
      · have h1 := hcnt e.id
        rw [if_pos (by simp [hid])] at h1
        simp only [hid, ite_true, regCount]
        rw [hid] at hce h1
        omega
      · have h1 := hcnt e.id
        rw [if_neg (by simp; exact fun hh => hid hh.symm)] at h1
        simp only [hid, ite_false, regCount]
        omega

/-- States reachable from `s` through any sequence of public registrations
and admin registration deletions. -/
inductive EventReach : EventState → EventState → Prop
  | refl (s : EventState) : EventReach s s
  | register (s t : EventState) (eid : Nat) (b : RegisterBody) :
      EventReach s t → EventReach s (registerForEvent t eid b).2
  | deleteReg (s t : EventState) (rid : Nat) :
      EventReach s t → EventReach s (deleteRegistration t rid).2

/-- The invariants hold in every state reachable from a well-formed state. -/
theorem eventWF_reach (s t : EventState) (h : EventWF s)
    (hr : EventReach s t) : EventWF t := by
  induction hr with
  | refl => exact h
  | register t eid b _ ih => exact eventWF_register t eid b ih
  | deleteReg t rid _ ih => exact eventWF_delete t rid ih

/-! ## Claim C4: registration deletion and the attendee counter -/

/-- C4.  In any state reachable from a well-formed one through register /
delete-registration operations, every event's `currentAttendees` is
non-negative; and deleting an existing registration succeeds, removes
exactly the registrations with that id, decrements the parent event's
counter by exactly 1, and leaves every other event untouched. -/
theorem delete_registration_spec (s0 s : EventState) (rid : Nat)
    (r : EventRegistration) (h0 : EventWF s0) (hreach : EventReach s0 s) :
    (∀ e ∈ s.events, 0 ≤ e.currentAttendees)
    ∧ (r ∈ s.regs → r.id = rid →
        (deleteRegistration s rid).1 = DeleteRegOutcome.deleted
        ∧ (∀ x : EventRegistration,
            x ∈ (deleteRegistration s rid).2.regs ↔ x ∈ s.regs ∧ x.id ≠ rid)
        ∧ (∀ e ∈ s.events, e.id = r.eventId →
            ({ e with currentAttendees := e.currentAttendees - 1 } : Event)
              ∈ (deleteRegistration s rid).2.events)
        ∧ (∀ e ∈ s.events, e.id ≠ r.eventId →
            e ∈ (deleteRegistration s rid).2.events)) := by
  have hwf := eventWF_reach s0 s h0 hreach
  constructor
  · intro e he
    have hc := hwf.2.2.2 e he
    rw [hc]
    exact Int.natCast_nonneg _
  · intro hmem hid
    have hfind : ∃ rr, s.regs.find? (fun x => x.id == rid) = some rr := by
      cases hf : s.regs.find? (fun x => x.id == rid) with
      | some rr => exact ⟨rr, rfl⟩
      | none =>
        exfalso
        have := List.find?_eq_none.mp hf r hmem
        simp [hid] at this
    obtain ⟨rr, hf⟩ := hfind
    have hrrmem : rr ∈ s.regs := List.mem_of_find?_eq_some hf
    have hrrid : rr.id = rid := by simpa using List.find?_some hf
    have hrr : rr = r :=
      List.inj_on_of_nodup_map hwf.2.1 hrrmem hmem (by rw [hrrid, hid])
    subst hrr
    refine ⟨?_, ?_, ?_, ?_⟩
    · simp [deleteRegistration, hf]
    · intro x
      simp only [deleteRegistration, hf]
      simp [List.mem_filter]
    · intro e he hide
      simp only [deleteRegistration, hf]
      refine List.mem_map.mpr ⟨e, he, ?_⟩
      rw [if_pos hide]
    · intro e he hide
      simp only [deleteRegistration, hf]
      refine List.mem_map.mpr ⟨e, he, ?_⟩
      rw [if_neg hide]

/-- Witness for `delete_registration_spec` on a concrete state with one
event of one attendee and its single registration: the counter is
non-negative, and the deletion removes the registration and leaves the
counter decremented to 0. -/
theorem delete_registration_spec_witness :
    (deleteRegistration
      { events := [{ id := 1, title := "t", slug := "t", published := true,
                     publishedAt := some 0, featured := false,
                     maxAttendees := 1, currentAttendees := 1 }],
        regs := [{ id := 0, eventId := 1, fullName := "A",
                   email := "a@x.com", phone := none, company := none,
                   jobTitle := none, notes := none, status := "confirmed" }],
        nextRegId := 1 } 0).1 = DeleteRegOutcome.deleted
    ∧ ({ id := 1, title := "t", slug := "t", published := true,
         publishedAt := some 0, featured := false, maxAttendees := 1,
         currentAttendees := 0 } : Event)
        ∈ (deleteRegistration
      { events := [{ id := 1, title := "t", slug := "t", published := true,
                     publishedAt := some 0, featured := false,
                     maxAttendees := 1, currentAttendees := 1 }],
        regs := [{ id := 0, eventId := 1, fullName := "A",
                   email := "a@x.com", phone := none, company := none,
                   jobTitle := none, notes := none, status := "confirmed" }],
        nextRegId := 1 } 0).2.events := by
  have h := delete_registration_spec
    { events := [{ id := 1, title := "t", slug := "t", published := true,
                   publishedAt := some 0, featured := false,
                   maxAttendees := 1, currentAttendees := 1 }],
      regs := [{ id := 0, eventId := 1, fullName := "A",
                 email := "a@x.com", phone := none, company := none,
                 jobTitle := none, notes := none, status := "confirmed" }],
      nextRegId := 1 }
    { events := [{ id := 1, title := "t", slug := "t", published := true,
                   publishedAt := some 0, featured := false,
                   maxAttendees := 1, currentAttendees := 1 }],
      regs := [{ id := 0, eventId := 1, fullName := "A",
                 email := "a@x.com", phone := none, company := none,
                 jobTitle := none, notes := none, status := "confirmed" }],
      nextRegId := 1 } 0
    { id := 0, eventId := 1, fullName := "A", email := "a@x.com",
      phone := none, company := none, jobTitle := none, notes := none,
      status := "confirmed" }
    (by decide) (EventReach.refl _)
  have h2 := h.2 (by decide) rfl
  refine ⟨h2.1, ?_⟩
  have := h2.2.2.1
    { id := 1, title := "t", slug := "t", published := true,
      publishedAt := some 0, featured := false, maxAttendees := 1,
      currentAttendees := 1 } (by decide) rfl
  simpa using this

/-! ## Claim C2: the registration guard conditions -/

/-- C2.  A registration request (one that passed the body validators)
succeeds exactly when the event exists, is published, no registration with
the same `(eventId, normalized email)` pair exists, and the event is not at
capacity (`maxAttendees > 0 && currentAttendees >= maxAttendees`).  On
success the registration is persisted with the normalized email and status
`confirmed`, and the event's `currentAttendees` grows by exactly 1; on
failure the state is unchanged. -/
theorem register_spec (s : EventState) (eid : Nat) (b : RegisterBody)
    (hwf : EventWF s) :
    ((∃ reg, (registerForEvent s eid b).1 = RegisterOutcome.registered reg) ↔
      (∃ e ∈ s.events, e.id = eid ∧ e.published = true
        ∧ (∀ r ∈ s.regs,
            ¬(r.eventId = eid ∧ r.email = jsToLowerCase b.email))
        ∧ ¬(0 < e.maxAttendees ∧ (e.maxAttendees : Int) ≤ e.currentAttendees)))
    ∧ (∀ reg, (registerForEvent s eid b).1 = RegisterOutcome.registered reg →
        reg ∈ (registerForEvent s eid b).2.regs
        ∧ reg.eventId = eid ∧ reg.email = jsToLowerCase b.email
        ∧ reg.status = "confirmed"
        ∧ (∀ e ∈ s.events, e.id = eid →
            ({ e with currentAttendees := e.currentAttendees + 1 } : Event)
              ∈ (registerForEvent s eid b).2.events))
    ∧ ((∀ reg, (registerForEvent s eid b).1 ≠ RegisterOutcome.registered reg) →
        (registerForEvent s eid b).2 = s) := by
  unfold registerForEvent
  cases hfind : s.events.find? (fun e => e.id == eid) with
  | none =>
    have hno : ∀ e ∈ s.events, ¬ e.id = eid := by
      intro e he
      have := List.find?_eq_none.mp hfind e he
      simpa using this
    refine ⟨?_, ?_, ?_⟩
    · simp only []
      constructor
      · rintro ⟨reg, hreg⟩
        cases hreg
      · rintro ⟨e, he, hide, _⟩
        exact absurd hide (hno e he)
    · intro reg hreg
      cases hreg
    · intro _
      rfl
  | some ev =>
    dsimp only
    have hevmem : ev ∈ s.events := List.mem_of_find?_eq_some hfind
    have hevid : ev.id = eid := by simpa using List.find?_some hfind
    have huniq : ∀ e ∈ s.events, e.id = eid → e = ev := by
      intro e he hide
      exact List.inj_on_of_nodup_map hwf.1 he hevmem (by rw [hide, hevid])
    by_cases hpub : ev.published = false
    · rw [if_pos hpub]
      refine ⟨?_, ?_, ?_⟩
      · constructor
        · rintro ⟨reg, hreg⟩
          cases hreg
        · rintro ⟨e, he, hide, hp, _⟩
          rw [huniq e he hide] at hp
          rw [hpub] at hp
          cases hp
      · intro reg hreg
        cases hreg
      · intro _
        rfl
    · rw [if_neg hpub]
      have hpub' : ev.published = true := by
        cases hb : ev.published
        · exact absurd hb hpub
        · rfl
      cases hdup : s.regs.find? (fun r =>
          r.eventId == eid && r.email == jsToLowerCase b.email) with
      | some r0 =>
        have hr0mem : r0 ∈ s.regs := List.mem_of_find?_eq_some hdup
        have hr0 : r0.eventId = eid ∧ r0.email = jsToLowerCase b.email := by
          have := List.find?_some hdup
          simpa using this
        refine ⟨?_, ?_, ?_⟩
        · constructor
          · rintro ⟨reg, hreg⟩
            cases hreg
          · rintro ⟨e, he, hide, hp, hnone, _⟩
            exact absurd hr0 (hnone r0 hr0mem)
        · intro reg hreg
          cases hreg
        · intro _
          rfl
      | none =>
        have hnodup : ∀ r ∈ s.regs,
            ¬(r.eventId = eid ∧ r.email = jsToLowerCase b.email) := by
          intro r hr
          have := List.find?_eq_none.mp hdup r hr
          simpa using this
        by_cases hfull : 0 < ev.maxAttendees ∧ (ev.maxAttendees : Int) ≤ ev.currentAttendees
        · rw [if_pos hfull]
          refine ⟨?_, ?_, ?_⟩
          · constructor
            · rintro ⟨reg, hreg⟩
              cases hreg
            · rintro ⟨e, he, hide, hp, hnone, hnf⟩
              rw [huniq e he hide] at hnf
              exact absurd hfull hnf
          · intro reg hreg
            cases hreg
          · intro _
            rfl
        · rw [if_neg hfull]
          refine ⟨?_, ?_, ?_⟩
          · constructor
            · intro _
              exact ⟨ev, hevmem, hevid, hpub', hnodup, hfull⟩
            · intro _
              exact ⟨_, rfl⟩
          · intro reg hreg
            cases hreg
            refine ⟨?_, rfl, rfl, rfl, ?_⟩
            · dsimp only
              simp
            · intro e he hide
              dsimp only
              refine List.mem_map.mpr ⟨e, he, ?_⟩
              rw [if_pos hide]
          · intro hno
            exact absurd rfl (hno _)

/-- Witness for `register_spec` on a concrete well-formed state: a
published event with free capacity and an empty registration list accepts
the registration. -/
theorem register_spec_witness :
    ∃ reg, (registerForEvent
      { events := [{ id := 1, title := "t", slug := "t", published := true,
                     publishedAt := some 0, featured := false,
                     maxAttendees := 2, currentAttendees := 0 }],
        regs := [], nextRegId := 0 } 1
      { fullName := "A", email := "a@x.com", phone := none, company := none,
        jobTitle := none, notes := none }).1 = RegisterOutcome.registered reg := by
  have h := register_spec
    { events := [{ id := 1, title := "t", slug := "t", published := true,
                   publishedAt := some 0, featured := false,
                   maxAttendees := 2, currentAttendees := 0 }],
      regs := [], nextRegId := 0 } 1
    { fullName := "A", email := "a@x.com", phone := none, company := none,
      jobTitle := none, notes := none } (by decide)
  refine h.1.mpr ?_
  refine ⟨{ id := 1, title := "t", slug := "t", published := true,
            publishedAt := some 0, featured := false,
            maxAttendees := 2, currentAttendees := 0 }, ?_, rfl, rfl, ?_, ?_⟩
  · simp
  · intro r hr
    simp at hr
  · decide

/-! ## Blog (src/models/Blog.js, src/routes/blog.js) -/

/-- A lowercase ASCII letter or digit — the character class `[a-z0-9]` of
the slug regexes. -/
def isLowerAlnum (c : Char) : Bool :=
  (decide ('a' ≤ c) && decide (c ≤ 'z')) || (decide ('0' ≤ c) && decide (c ≤ '9'))

/-- The JavaScript `\s` class restricted to the ASCII whitespace characters
(space, tab, newline, carriage return, vertical tab, form feed). -/
def jsWhitespace (c : Char) : Bool :=
  c == ' ' || c == '\t' || c == '\n' || c == '\r'
    || c == '\x0b' || c == '\x0c'

/-- Worker for `collapseRuns`: `inRun` records whether the previous character
belonged to the current run of `p`-characters; the replacement character is
emitted at the start of each run. -/
def collapseRunsAux (p : Char → Bool) (rep : Char) : Bool → List Char → List Char
  | _, [] => []
  | inRun, c :: rest =>
    if p c then
      if inRun then collapseRunsAux p rep true rest
      else rep :: collapseRunsAux p rep true rest
    else c :: collapseRunsAux p rep false rest

/-- `.replace(/P+/g, rep)`: every maximal run of characters satisfying `p`
is replaced by the single character `rep`. -/
def collapseRuns (p : Char → Bool) (rep : Char) (l : List Char) : List Char :=
  collapseRunsAux p rep false l

/-- Remove the trailing run of characters satisfying `p` (the `/P+$/` part
of a trim regex). -/
def dropTrailing (p : Char → Bool) (l : List Char) : List Char :=
  (l.reverse.dropWhile p).reverse

/-- The slug generation of `blogSchema.pre('save')` (src/models/Blog.js
lines 202-210).  The source chains five steps: `toLowerCase()`, a replace
deleting every character outside `[a-z0-9\s-]`, a replace turning each
whitespace run (`\s+`) into a single `'-'`, a replace collapsing each
hyphen run (`-+`) into a single `'-'`, and a replace stripping the leading
and trailing hyphen runs. -/
def blogSlugify (title : String) : String :=
  let l1 := title.toList.map Char.toLower
  let l2 := l1.filter (fun c => isLowerAlnum c || jsWhitespace c || c == '-')
  let l3 := collapseRuns jsWhitespace '-' l2
  let l4 := collapseRuns (fun c => c == '-') '-' l3
  let l5 := l4.dropWhile (fun c => c == '-')
  String.mk (dropTrailing (fun c => c == '-') l5)

/-- The slug derivation as the spec words it (and as the event routes
implement it: `.toLowerCase().replace(/[^a-z0-9]+/g, '-')
.replace(/(^-|-$)/g, '')`): lowercase, replace every maximal run of
non-alphanumerics by a single hyphen, strip edge hyphens.  Stated from the
spec for comparison with `blogSlugify`. -/
def specSlugOfTitle (title : String) : String :=
  let l1 := title.toList.map Char.toLower
  let l2 := collapseRuns (fun c => !(isLowerAlnum c)) '-' l1
  let l3 := l2.dropWhile (fun c => c == '-')
  String.mk (dropTrailing (fun c => c == '-') l3)

/-- JavaScript `s.substring(0, n)`. -/
def jsSubstring (s : String) (n : Nat) : String :=
  String.mk (s.toList.take n)

/-- A document of the `Blog` collection.  `slug`, `seoTitle` and
`seoDescription` use `""` for the unset state; `views` and `likes` are the
counters.  Fields untouched by the modelled routes (contentSections, tags,
readTime, seoKeywords, authorProfile, ...) are omitted. -/
structure Blog where
  id : Nat
  title : String
  slug : String
  excerpt : String
  content : String
  image : String
  author : String
  category : String
  featured : Bool
  published : Bool
  views : Nat
  likes : Nat
  seoTitle : String
  seoDescription : String
deriving Repr, DecidableEq

/-- The schema validators on `slug`: `required` and
`match: /^[a-z0-9-]+$/` (the `lowercase: true` setter is modelled by the
charset requirement). -/
def validSlug (slug : String) : Bool :=
  slug ≠ "" && slug.toList.all (fun c => isLowerAlnum c || c == '-')

/-- First step of `blogSchema.pre('save')`: generate the slug from the
title when the slug is falsy and the title truthy. -/
def preSlug (b : Blog) : Blog :=
  if b.slug = "" ∧ b.title ≠ "" then { b with slug := blogSlugify b.title }
  else b

/-- Second step of the pre-save hook: default `seoTitle` to the first 60
characters of the title when unset. -/
def preSeoTitle (b : Blog) : Blog :=
  if b.seoTitle = "" then { b with seoTitle := jsSubstring b.title 60 }
  else b

/-- Third step of the pre-save hook: default `seoDescription` to the first
160 characters of the excerpt when unset. -/
def preSeoDesc (b : Blog) : Blog :=
  if b.seoDescription = "" then
    { b with seoDescription := jsSubstring b.excerpt 160 }
  else b

/-- `blogSchema.pre('save')` (src/models/Blog.js lines 201-221): the three
steps in source order.  Runs on every save. -/
def blogPreSave (b : Blog) : Blog :=
  preSeoDesc (preSeoTitle (preSlug b))

/-- The `Blog` collection with the id supply. -/
structure BlogState where
  blogs : List Blog
  nextId : Nat
deriving Repr, DecidableEq

/-- A failed Mongoose `save()`: either the unique-index violation on `slug`
(error code 11000) or a schema-validation failure. -/
inductive SaveErr where
  | dupKey
  | validation
deriving Repr, DecidableEq

/-- `save()` of a new document: schema validation, then the unique index
on `slug`, then insertion at the end of the collection. -/
def saveNewBlog (s : BlogState) (blog : Blog) : Except SaveErr BlogState :=
  if validSlug blog.slug = false then .error .validation
  else if s.blogs.any (fun x => x.slug == blog.slug) then .error .dupKey
  else .ok { blogs := s.blogs ++ [blog], nextId := s.nextId + 1 }

/-- `save()` of a loaded document: schema validation, the unique `slug`
index against every other document, then replacement in place. -/
def saveExistingBlog (s : BlogState) (blog : Blog) : Except SaveErr BlogState :=
  if validSlug blog.slug = false then .error .validation
  else if s.blogs.any (fun x => x.id != blog.id && x.slug == blog.slug) then
    .error .dupKey
  else .ok { s with blogs := s.blogs.map (fun x =>
    if x.id = blog.id then blog else x) }

/-- Body of `POST /api/blog` after validation (title/excerpt/content/image/
category present, optional fields well-typed).  Fields the validators allow
but the claims never touch are omitted. -/
structure BlogCreateBody where
  title : String
  slug : Option String
  excerpt : String
  content : String
  image : String
  author : Option String
  category : String
  featured : Option Bool
  published : Option Bool
  seoTitle : Option String
  seoDescription : Option String
deriving Repr, DecidableEq

/-- `new Blog(req.body)` with the schema defaults (`author`, `featured:
false`, `published: true`, `views: 0`, `likes: 0`). -/
def blogOfBody (s : BlogState) (b : BlogCreateBody) : Blog :=
  { id := s.nextId
    title := b.title
    slug := b.slug.getD ""
    excerpt := b.excerpt
    content := b.content
    image := b.image
    author := b.author.getD "Akash Raikwar"
    category := b.category
    featured := b.featured.getD false
    published := b.published.getD true
    views := 0
    likes := 0
    seoTitle := b.seoTitle.getD ""
    seoDescription := b.seoDescription.getD "" }

/-- The save half of the create route: `new Blog(req.body)` then `save()`
(running the pre-save hook); a duplicate-key error is answered 400, any
other save error 500, success 201. -/
def createBlogSave (s : BlogState) (b : BlogCreateBody) :
    ApiResponse × BlogState :=
  match saveNewBlog s (blogPreSave (blogOfBody s b)) with
  | .error .dupKey => (⟨400, false⟩, s)
  | .error .validation => (⟨500, false⟩, s)
  | .ok s' => (⟨201, true⟩, s')

/-- `router.post('/')` (src/routes/blog.js lines 210-266 and the protected
variant): when a truthy slug is supplied, an existing blog with that slug is
a 400 before anything is written; then the document is built and saved. -/
def createBlog (s : BlogState) (b : BlogCreateBody) : ApiResponse × BlogState :=
  if jsTruthy b.slug then
    match s.blogs.find? (fun x => x.slug == b.slug.getD "") with
    | some _ => (⟨400, false⟩, s)
    | none => createBlogSave s b
  else createBlogSave s b

/-- Body of `PUT /api/blog/:id`.  `Object.assign(blog, req.body)` copies
every field present in the body, so the body may carry any schema path,
including `views` and `likes`; `none` models an absent field. -/
structure BlogUpdateBody where
  title : Option String
  slug : Option String
  excerpt : Option String
  content : Option String
  image : Option String
  author : Option String
  category : Option String
  featured : Option Bool
  published : Option Bool
  views : Option Nat
  likes : Option Nat
  seoTitle : Option String
  seoDescription : Option String
deriving Repr, DecidableEq

/-- `Object.assign(blog, req.body)`: every supplied field overwrites the
document's field, whatever its value. -/
def objectAssign (blog : Blog) (b : BlogUpdateBody) : Blog :=
  { blog with
    title := b.title.getD blog.title
    slug := b.slug.getD blog.slug
    excerpt := b.excerpt.getD blog.excerpt
    content := b.content.getD blog.content
    image := b.image.getD blog.image
    author := b.author.getD blog.author
    category := b.category.getD blog.category
    featured := b.featured.getD blog.featured
    published := b.published.getD blog.published
    views := b.views.getD blog.views
    likes := b.likes.getD blog.likes
    seoTitle := b.seoTitle.getD blog.seoTitle
    seoDescription := b.seoDescription.getD blog.seoDescription }

/-- The save half of the update route: `Object.assign` then `save()`; the
update route's catch block has no duplicate-key special case, so any save
failure is a 500. -/
def updateBlogSave (s : BlogState) (blog : Blog) (b : BlogUpdateBody) :
    ApiResponse × BlogState :=
  match saveExistingBlog s (blogPreSave (objectAssign blog b)) with
  | .error _ => (⟨500, false⟩, s)
  | .ok s' => (⟨200, true⟩, s')

/-- `router.put('/:id')` (src/routes/blog.js lines 269-324 and the
protected variant): 404 when the blog is missing; when a truthy slug
differing from the current one is supplied and another blog already has it,
400; otherwise assign and save. -/
def updateBlog (s : BlogState) (bid : Nat) (b : BlogUpdateBody) :
    ApiResponse × BlogState :=
  match s.blogs.find? (fun x => x.id == bid) with
  | none => (⟨404, false⟩, s)
  | some blog =>
    if jsTruthy b.slug ∧ b.slug ≠ some blog.slug then
      match s.blogs.find? (fun x =>
          x.slug == b.slug.getD "" && x.id != bid) with
      | some _ => (⟨400, false⟩, s)
      | none => updateBlogSave s blog b
    else updateBlogSave s blog b

/-- `router.get('/slug/:slug')` (src/routes/blog.js lines 149-178): find a
published blog by slug — 404 when absent — then `blog.incrementViews()`
(`this.views += 1; this.save()`). -/
def getBlogBySlug (s : BlogState) (slug : String) : ApiResponse × BlogState :=
  match s.blogs.find? (fun x => x.slug == slug && x.published) with
  | none => (⟨404, false⟩, s)
  | some blog =>
    match saveExistingBlog s (blogPreSave { blog with views := blog.views + 1 }) with
    | .error _ => (⟨500, false⟩, s)
    | .ok s' => (⟨200, true⟩, s')

/-- `router.post('/:id/like')` (src/routes/blog.js lines 358-389): find by
id — 404 when absent — then `blog.incrementLikes()`
(`this.likes += 1; this.save()`). -/
def likeBlog (s : BlogState) (bid : Nat) : ApiResponse × BlogState :=
  match s.blogs.find? (fun x => x.id == bid) with
  | none => (⟨404, false⟩, s)
  | some blog =>
    match saveExistingBlog s (blogPreSave { blog with likes := blog.likes + 1 }) with
    | .error _ => (⟨500, false⟩, s)
    | .ok s' => (⟨200, true⟩, s')

/-- `router.delete('/:id')`: `findByIdAndDelete`. -/
def deleteBlog (s : BlogState) (bid : Nat) : ApiResponse × BlogState :=
  match s.blogs.find? (fun x => x.id == bid) with
  | none => (⟨404, false⟩, s)
  | some _ =>
    (⟨200, true⟩, { s with blogs := s.blogs.filter (fun x => x.id != bid) })

/-- One blog-collection operation, covering every route that writes the
collection. -/
inductive BlogOp where
  | create (b : BlogCreateBody)
  | update (bid : Nat) (b : BlogUpdateBody)
  | getBySlug (slug : String)
  | like (bid : Nat)
  | remove (bid : Nat)
deriving Repr, DecidableEq

/-- The state transition of a blog-collection operation. -/
def applyBlogOp (s : BlogState) (op : BlogOp) : BlogState :=
  match op with
  | .create b => (createBlog s b).2
  | .update bid b => (updateBlog s bid b).2
  | .getBySlug slug => (getBlogBySlug s slug).2
  | .like bid => (likeBlog s bid).2
  | .remove bid => (deleteBlog s bid).2

/-- Fold a sequence of operations over a state. -/
def applyBlogOps (s : BlogState) (ops : List BlogOp) : BlogState :=
  ops.foldl applyBlogOp s

/-- Store well-formedness for the blog collection: unique `_id`s, ids below
the supply, and the unique index on `slug`. -/
def BlogWF (s : BlogState) : Prop :=
  (s.blogs.map (fun x => x.id)).Nodup
  ∧ (∀ x ∈ s.blogs, x.id < s.nextId)
  ∧ (s.blogs.map (fun x => x.slug)).Nodup

instance (s : BlogState) : Decidable (BlogWF s) := by
  unfold BlogWF
  infer_instance

/-- The views and likes counters of the blog with a given id. -/
def countersOf (s : BlogState) (bid : Nat) : Option (Nat × Nat) :=
  (s.blogs.find? (fun x => x.id == bid)).map (fun x => (x.views, x.likes))

/-! ### Helper lemmas about the blog store -/

/-- The seo steps of the hook touch only their own field. -/
theorem preSeoTitle_id (b : Blog) : (preSeoTitle b).id = b.id := by
  unfold preSeoTitle
  split <;> rfl

/-- The seo steps of the hook touch only their own field. -/
theorem preSeoDesc_id (b : Blog) : (preSeoDesc b).id = b.id := by
  unfold preSeoDesc
  split <;> rfl

/-- The slug step of the hook touches only the slug. -/
theorem preSlug_id (b : Blog) : (preSlug b).id = b.id := by
  unfold preSlug
  split <;> rfl

/-- The seo steps of the hook leave the slug alone. -/
theorem preSeoTitle_slug (b : Blog) : (preSeoTitle b).slug = b.slug := by
  unfold preSeoTitle
  split <;> rfl

/-- The seo steps of the hook leave the slug alone. -/
theorem preSeoDesc_slug (b : Blog) : (preSeoDesc b).slug = b.slug := by
  unfold preSeoDesc
  split <;> rfl

/-- The hook steps leave the counters alone. -/
theorem preSeoTitle_counters (b : Blog) :
    (preSeoTitle b).views = b.views ∧ (preSeoTitle b).likes = b.likes := by
  unfold preSeoTitle
  split <;> exact ⟨rfl, rfl⟩

/-- The hook steps leave the counters alone. -/
theorem preSeoDesc_counters (b : Blog) :
    (preSeoDesc b).views = b.views ∧ (preSeoDesc b).likes = b.likes := by
  unfold preSeoDesc
  split <;> exact ⟨rfl, rfl⟩

/-- The hook steps leave the counters alone. -/
theorem preSlug_counters (b : Blog) :
    (preSlug b).views = b.views ∧ (preSlug b).likes = b.likes := by
  unfold preSlug
  split <;> exact ⟨rfl, rfl⟩

/-- `blogPreSave` never touches the id. -/
theorem blogPreSave_id (b : Blog) : (blogPreSave b).id = b.id := by
  unfold blogPreSave
  rw [preSeoDesc_id, preSeoTitle_id, preSlug_id]

/-- `blogPreSave` never touches the counters. -/
theorem blogPreSave_views (b : Blog) : (blogPreSave b).views = b.views := by
  unfold blogPreSave
  rw [(preSeoDesc_counters _).1, (preSeoTitle_counters _).1,
    (preSlug_counters _).1]

/-- `blogPreSave` never touches the counters. -/
theorem blogPreSave_likes (b : Blog) : (blogPreSave b).likes = b.likes := by
  unfold blogPreSave
  rw [(preSeoDesc_counters _).2, (preSeoTitle_counters _).2,
    (preSlug_counters _).2]

/-- A non-empty slug survives `blogPreSave`. -/
theorem blogPreSave_slug (b : Blog) (h : b.slug ≠ "") :
    (blogPreSave b).slug = b.slug := by
  unfold blogPreSave
  rw [preSeoDesc_slug, preSeoTitle_slug]
  unfold preSlug
  rw [if_neg (fun hc => h hc.1)]

/-- Mapping an id-preserving function over the collection keeps the id
list. -/
theorem blog_ids_map (l : List Blog) (f : Blog → Blog)
    (hf : ∀ x, (f x).id = x.id) :
    (l.map f).map (fun x => x.id) = l.map (fun x => x.id) := by
  induction l with
  | nil => rfl
  | cons a t ih => simp [hf, ih]

/-- Finding by id commutes with mapping an id-preserving function. -/
theorem find?_beq_id_map (l : List Blog) (f : Blog → Blog)
    (hf : ∀ x, (f x).id = x.id) (bid : Nat) :
    (l.map f).find? (fun x => x.id == bid)
      = (l.find? (fun x => x.id == bid)).map f := by
  induction l with
  | nil => rfl
  | cons a t ih =>
    simp only [List.map_cons, List.find?_cons]
    rw [hf a]
    cases hpa : (a.id == bid) <;> simp [ih]

/-- A hit in the first part of an append is the hit of the whole. -/
theorem find?_append_some {α : Type} (p : α → Bool) (l₁ l₂ : List α) (a : α)
    (h : l₁.find? p = some a) : (l₁ ++ l₂).find? p = some a := by
  induction l₁ with
  | nil => simp at h
  | cons b t ih =>
    simp only [List.cons_append, List.find?_cons] at h ⊢
    cases hpb : p b <;> simp only [hpb] at h ⊢
    · exact ih h
    · exact h

/-- A miss in the first part of an append defers to the second part. -/
theorem find?_append_none {α : Type} (p : α → Bool) (l₁ l₂ : List α)
    (h : l₁.find? p = none) : (l₁ ++ l₂).find? p = l₂.find? p := by
  induction l₁ with
  | nil => simp
  | cons b t ih =>
    simp only [List.cons_append, List.find?_cons] at h ⊢
    cases hpb : p b <;> simp only [hpb] at h ⊢
    · exact ih h
    · cases h

/-- With unique ids, finding by the id of a member returns that member. -/
theorem find?_id_of_mem (l : List Blog) (blog : Blog)
    (hnd : (l.map (fun x => x.id)).Nodup) (hm : blog ∈ l) :
    l.find? (fun x => x.id == blog.id) = some blog := by
  cases hf : l.find? (fun x => x.id == blog.id) with
  | none =>
    exfalso
    have := List.find?_eq_none.mp hf blog hm
    simp at this
  | some x0 =>
    have hx0m : x0 ∈ l := List.mem_of_find?_eq_some hf
    have hx0id : x0.id = blog.id := by simpa using List.find?_some hf
    rw [List.inj_on_of_nodup_map hnd hx0m hm hx0id]

/-- With unique slugs, finding a published member by its slug returns that
member. -/
theorem find?_slug_pub_of_mem (l : List Blog) (blog : Blog)
    (hnd : (l.map (fun x => x.slug)).Nodup) (hm : blog ∈ l)
    (hpub : blog.published = true) :
    l.find? (fun x => x.slug == blog.slug && x.published) = some blog := by
  cases hf : l.find? (fun x => x.slug == blog.slug && x.published) with
  | none =>
    exfalso
    have := List.find?_eq_none.mp hf blog hm
    simp [hpub] at this
  | some x0 =>
    have hx0m : x0 ∈ l := List.mem_of_find?_eq_some hf
    have hx0 : x0.slug = blog.slug := by
      have := List.find?_some hf
      simp only [Bool.and_eq_true, beq_iff_eq] at this
      exact this.1
    rw [List.inj_on_of_nodup_map hnd hx0m hm hx0]

/-- Filtering out an id then searching for it finds nothing. -/
theorem find?_filter_id_self (l : List Blog) (bid : Nat) :
    (l.filter (fun x => x.id != bid)).find? (fun x => x.id == bid) = none := by
  refine List.find?_eq_none.mpr ?_
  intro x hx
  have := (List.mem_filter.mp hx).2
  simp only [bne_iff_ne, ne_eq] at this
  simp [this]

/-- Filtering out a different id does not change an id search. -/
theorem find?_filter_id_ne (l : List Blog) (bid rid : Nat) (h : bid ≠ rid) :
    (l.filter (fun x => x.id != rid)).find? (fun x => x.id == bid)
      = l.find? (fun x => x.id == bid) := by
  induction l with
  | nil => rfl
  | cons a t ih =>
    by_cases ha : a.id = rid
    · have hnb : (rid == bid) = false := by
        simp only [beq_eq_false_iff_ne, ne_eq]
        exact fun hc => h hc.symm
      simp [List.filter_cons, List.find?_cons, ha, hnb, ih]
    · have hb : (a.id != rid) = true := by simp [ha]
      cases hnb : (a.id == bid) <;>
        simp [List.filter_cons, List.find?_cons, hb, hnb, ih]

/-- With unique slugs, no other document shares a member's slug. -/
theorem any_other_slug_false (l : List Blog) (blog : Blog)
    (hnd : (l.map (fun x => x.slug)).Nodup) (hm : blog ∈ l) :
    (l.any (fun x => x.id != blog.id && x.slug == blog.slug)) = false := by
  rw [List.any_eq_false]
  intro x hx
  simp only [Bool.and_eq_true, bne_iff_ne, ne_eq, beq_iff_eq, not_and]
  intro hne hslug
  exact hne (by rw [List.inj_on_of_nodup_map hnd hx hm hslug])

/-- Replacing the document with a given id keeps the slug list duplicate
free when no other document carries the incoming slug. -/
theorem slugs_nodup_replace (l : List Blog) (blog : Blog)
    (hids : (l.map (fun x => x.id)).Nodup)
    (hslugs : (l.map (fun x => x.slug)).Nodup)
    (hno : ∀ x ∈ l, x.id ≠ blog.id → x.slug ≠ blog.slug) :
    ((l.map (fun x => if x.id = blog.id then blog else x)).map
      (fun x => x.slug)).Nodup := by
  induction l with
  | nil => exact List.nodup_nil
  | cons a t ih =>
    simp only [List.map_cons, List.nodup_cons] at hids hslugs
    simp only [List.map_cons, List.nodup_cons]
    by_cases ha : a.id = blog.id
    · have hrest : t.map (fun x => if x.id = blog.id then blog else x) = t := by
        have : t.map (fun x => if x.id = blog.id then blog else x)
            = t.map (fun x => x) := by
          refine List.map_congr_left ?_
          intro x hx
          have hxne : x.id ≠ blog.id := by
            intro hc
            apply hids.1
            have hxa : x.id = a.id := by rw [hc, ha]
            exact hxa ▸ List.mem_map_of_mem (fun y => y.id) hx
          exact if_neg hxne
        rw [this]
        exact List.map_id' t
      rw [if_pos ha, hrest]
      refine ⟨?_, hslugs.2⟩
      intro hmem
      obtain ⟨x, hx, hxs⟩ := List.mem_map.mp hmem
      have hxne : x.id ≠ blog.id := by
        intro hc
        apply hids.1
        rw [← ha] at hc
        exact hc ▸ List.mem_map_of_mem (fun y => y.id) hx
      exact hno x (List.mem_cons_of_mem a hx) hxne hxs
    · rw [if_neg ha]
      refine ⟨?_, ih hids.2 hslugs.2
        (fun x hx => hno x (List.mem_cons_of_mem a hx))⟩
      intro hmem
      obtain ⟨y, hy, hys⟩ := List.mem_map.mp hmem
      obtain ⟨z, hz, hzy⟩ := List.mem_map.mp hy
      by_cases hzid : z.id = blog.id
      · rw [← hzy, if_pos hzid] at hys
        exact hno a (List.mem_cons_self a t) ha hys.symm
      · rw [← hzy, if_neg hzid] at hys
        exact hslugs.1 (hys ▸ List.mem_map_of_mem (fun x => x.slug) hz)

/-- The replacement function used by `saveExistingBlog` preserves ids. -/
theorem replace_id_preserving (blog : Blog) :
    ∀ x : Blog, ((fun x => if x.id = blog.id then blog else x) x).id = x.id := by
  intro x
  by_cases hc : x.id = blog.id
  · simp [hc]
  · simp [hc]

/-- A successful `saveNewBlog` of a fresh-id document preserves the store
invariants. -/
theorem blogWF_saveNew (s : BlogState) (blog : Blog) (s' : BlogState)
    (h : BlogWF s) (hid : blog.id = s.nextId)
    (hs : saveNewBlog s blog = .ok s') : BlogWF s' := by
  obtain ⟨hids, hbound, hslugs⟩ := h
  unfold saveNewBlog at hs
  by_cases hv : validSlug blog.slug = false
  · rw [if_pos hv] at hs
    cases hs
  · rw [if_neg hv] at hs
    by_cases hdup : s.blogs.any (fun x => x.slug == blog.slug) = true
    · rw [if_pos hdup] at hs
      cases hs
    · rw [if_neg hdup] at hs
      cases hs
      have hnos : ∀ x ∈ s.blogs, x.slug ≠ blog.slug := by
        intro x hx
        have := List.any_eq_false.mp (Bool.not_eq_true _ ▸ hdup) x hx
        simpa using this
      refine ⟨?_, ?_, ?_⟩
      · simp only [List.map_append, List.map_cons, List.map_nil]
        rw [List.nodup_append]
        refine ⟨hids, List.nodup_singleton _, ?_⟩
        intro x hx
        simp only [List.mem_map] at hx
        obtain ⟨y, hy, hyx⟩ := hx
        have := hbound y hy
        simp only [List.mem_singleton]
        rw [hid]
        omega
      · intro x hx
        show x.id < s.nextId + 1
        simp only [List.mem_append, List.mem_singleton] at hx
        rcases hx with hx | hx
        · have := hbound x hx
          omega
        · subst hx
          rw [hid]
          omega
      · simp only [List.map_append, List.map_cons, List.map_nil]
        rw [List.nodup_append]
        refine ⟨hslugs, List.nodup_singleton _, ?_⟩
        intro x hx
        simp only [List.mem_map] at hx
        obtain ⟨y, hy, hyx⟩ := hx
        simp only [List.mem_singleton]
        rw [← hyx]
        exact hnos y hy

/-- A successful `saveExistingBlog` preserves the store invariants. -/
theorem blogWF_saveExisting (s : BlogState) (blog : Blog) (s' : BlogState)
    (h : BlogWF s) (hs : saveExistingBlog s blog = .ok s') : BlogWF s' := by
  obtain ⟨hids, hbound, hslugs⟩ := h
  unfold saveExistingBlog at hs
  by_cases hv : validSlug blog.slug = false
  · rw [if_pos hv] at hs
    cases hs
  · rw [if_neg hv] at hs
    by_cases hdup : s.blogs.any
        (fun x => x.id != blog.id && x.slug == blog.slug) = true
    · rw [if_pos hdup] at hs
      cases hs
    · rw [if_neg hdup] at hs
      cases hs
      have hno : ∀ x ∈ s.blogs, x.id ≠ blog.id → x.slug ≠ blog.slug := by
        intro x hx hxid
        have := List.any_eq_false.mp (Bool.not_eq_true _ ▸ hdup) x hx
        simpa [hxid] using this
      refine ⟨?_, ?_, ?_⟩
      · dsimp only
        rw [blog_ids_map s.blogs _ (replace_id_preserving blog)]
        exact hids
      · intro x hx
        simp only [List.mem_map] at hx
        obtain ⟨y, hy, hyx⟩ := hx
        have hidy : x.id = y.id := by
          rw [← hyx]
          exact replace_id_preserving blog y
        have := hbound y hy
        show x.id < s.nextId
        omega
      · exact slugs_nodup_replace s.blogs blog hids hslugs hno

/-- The create route preserves the store invariants. -/
theorem blogWF_createBlogSave (s : BlogState) (b : BlogCreateBody)
    (h : BlogWF s) : BlogWF (createBlogSave s b).2 := by
  unfold createBlogSave
  cases hsv : saveNewBlog s (blogPreSave (blogOfBody s b)) with
  | error e => cases e <;> exact h
  | ok s2 =>
    refine blogWF_saveNew s _ s2 h ?_ hsv
    rw [blogPreSave_id]
    rfl

/-- The update route's save half preserves the store invariants. -/
theorem blogWF_updateBlogSave (s : BlogState) (blog : Blog)
    (b : BlogUpdateBody) (h : BlogWF s) :
    BlogWF (updateBlogSave s blog b).2 := by
  unfold updateBlogSave
  cases hsv : saveExistingBlog s (blogPreSave (objectAssign blog b)) with
  | error e => exact h
  | ok s2 => exact blogWF_saveExisting s _ s2 h hsv

/-- Every blog-collection operation preserves the store invariants. -/
theorem blogWF_apply (s : BlogState) (op : BlogOp) (h : BlogWF s) :
    BlogWF (applyBlogOp s op) := by
  cases op with
  | create b =>
    show BlogWF (createBlog s b).2
    unfold createBlog
    by_cases ht : jsTruthy b.slug = true
    · rw [if_pos ht]
      cases hf : s.blogs.find? (fun x => x.slug == b.slug.getD "") with
      | some x => exact h
      | none => exact blogWF_createBlogSave s b h
    · rw [if_neg ht]
      exact blogWF_createBlogSave s b h
  | update bid b =>
    show BlogWF (updateBlog s bid b).2
    unfold updateBlog
    cases hf : s.blogs.find? (fun x => x.id == bid) with
    | none => exact h
    | some blog =>
      dsimp only
      by_cases hcond : jsTruthy b.slug = true ∧ b.slug ≠ some blog.slug
      · rw [if_pos hcond]
        cases hfd : s.blogs.find? (fun x =>
            x.slug == b.slug.getD "" && x.id != bid) with
        | some x => exact h
        | none => exact blogWF_updateBlogSave s blog b h
      · rw [if_neg hcond]
        exact blogWF_updateBlogSave s blog b h
  | getBySlug slug =>
    show BlogWF (getBlogBySlug s slug).2
    unfold getBlogBySlug
    cases hf : s.blogs.find? (fun x => x.slug == slug && x.published) with
    | none => exact h
    | some blog =>
      dsimp only
      cases hsv : saveExistingBlog s
          (blogPreSave { blog with views := blog.views + 1 }) with
      | error e => exact h
      | ok s2 => exact blogWF_saveExisting s _ s2 h hsv
  | like bid =>
    show BlogWF (likeBlog s bid).2
    unfold likeBlog
    cases hf : s.blogs.find? (fun x => x.id == bid) with
    | none => exact h
    | some blog =>
      dsimp only
      cases hsv : saveExistingBlog s
          (blogPreSave { blog with likes := blog.likes + 1 }) with
      | error e => exact h
      | ok s2 => exact blogWF_saveExisting s _ s2 h hsv
  | remove bid =>
    show BlogWF (deleteBlog s bid).2
    unfold deleteBlog
    cases hf : s.blogs.find? (fun x => x.id == bid) with
    | none => exact h
    | some blog =>
      obtain ⟨hids, hbound, hslugs⟩ := h
      refine ⟨?_, ?_, ?_⟩
      · exact List.Nodup.sublist
          ((List.filter_sublist s.blogs).map (fun x => x.id)) hids
      · intro x hx
        exact hbound x (List.mem_of_mem_filter hx)
      · exact List.Nodup.sublist
          ((List.filter_sublist s.blogs).map (fun x => x.slug)) hslugs

/-- Sequences of blog operations preserve the store invariants. -/
theorem blogWF_ops (s : BlogState) (ops : List BlogOp) (h : BlogWF s) :
    BlogWF (applyBlogOps s ops) := by
  induction ops generalizing s with
  | nil => exact h
  | cons op t ih => exact ih _ (blogWF_apply s op h)

/-- A successful insert bumps the id supply by one. -/
theorem saveNewBlog_nextId (s : BlogState) (blog : Blog) (s' : BlogState)
    (hs : saveNewBlog s blog = .ok s') : s'.nextId = s.nextId + 1 := by
  unfold saveNewBlog at hs
  split at hs
  · cases hs
  · split at hs
    · cases hs
    · cases hs
      rfl

/-- A successful in-place save keeps the id supply. -/
theorem saveExistingBlog_nextId (s : BlogState) (blog : Blog) (s' : BlogState)
    (hs : saveExistingBlog s blog = .ok s') : s'.nextId = s.nextId := by
  unfold saveExistingBlog at hs
  split at hs
  · cases hs
  · split at hs
    · cases hs
    · cases hs
      rfl

/-- No operation lowers the id supply. -/
theorem blog_nextId_mono (s : BlogState) (op : BlogOp) :
    s.nextId ≤ (applyBlogOp s op).nextId := by
  cases op with
  | create b =>
    show s.nextId ≤ (createBlog s b).2.nextId
    have hsave : s.nextId ≤ (createBlogSave s b).2.nextId := by
      unfold createBlogSave
      cases hsv : saveNewBlog s (blogPreSave (blogOfBody s b)) with
      | error e => cases e <;> exact le_refl _
      | ok s2 =>
        show s.nextId ≤ s2.nextId
        rw [saveNewBlog_nextId s _ s2 hsv]
        exact Nat.le_succ _
    unfold createBlog
    by_cases ht : jsTruthy b.slug = true
    · rw [if_pos ht]
      cases hf : s.blogs.find? (fun x => x.slug == b.slug.getD "") with
      | some x => exact le_refl _
      | none => exact hsave
    · rw [if_neg ht]
      exact hsave
  | update bid b =>
    show s.nextId ≤ (updateBlog s bid b).2.nextId
    unfold updateBlog
    cases hf : s.blogs.find? (fun x => x.id == bid) with
    | none => exact le_refl _
    | some blog =>
      have hsave : s.nextId ≤ (updateBlogSave s blog b).2.nextId := by
        unfold updateBlogSave
        cases hsv : saveExistingBlog s (blogPreSave (objectAssign blog b)) with
        | error e => exact le_refl _
        | ok s2 =>
          show s.nextId ≤ s2.nextId
          rw [saveExistingBlog_nextId s _ s2 hsv]
      dsimp only
      by_cases hcond : jsTruthy b.slug = true ∧ b.slug ≠ some blog.slug
      · rw [if_pos hcond]
        cases hfd : s.blogs.find? (fun x =>
            x.slug == b.slug.getD "" && x.id != bid) with
        | some x => exact le_refl _
        | none => exact hsave
      · rw [if_neg hcond]
        exact hsave
  | getBySlug slug =>
    show s.nextId ≤ (getBlogBySlug s slug).2.nextId
    unfold getBlogBySlug
    cases hf : s.blogs.find? (fun x => x.slug == slug && x.published) with
    | none => exact le_refl _
    | some blog =>
      dsimp only
      cases hsv : saveExistingBlog s
          (blogPreSave { blog with views := blog.views + 1 }) with
      | error e => exact le_refl _
      | ok s2 =>
        show s.nextId ≤ s2.nextId
        rw [saveExistingBlog_nextId s _ s2 hsv]
  | like bid =>
    show s.nextId ≤ (likeBlog s bid).2.nextId
    unfold likeBlog
    cases hf : s.blogs.find? (fun x => x.id == bid) with
    | none => exact le_refl _
    | some blog =>
      dsimp only
      cases hsv : saveExistingBlog s
          (blogPreSave { blog with likes := blog.likes + 1 }) with
      | error e => exact le_refl _
      | ok s2 =>
        show s.nextId ≤ s2.nextId
        rw [saveExistingBlog_nextId s _ s2 hsv]
  | remove bid =>
    show s.nextId ≤ (deleteBlog s bid).2.nextId
    unfold deleteBlog
    cases hf : s.blogs.find? (fun x => x.id == bid) with
    | none => exact le_refl _
    | some blog => exact le_refl _

/-- `objectAssign` never touches the id. -/
theorem objectAssign_id (blog : Blog) (b : BlogUpdateBody) :
    (objectAssign blog b).id = blog.id := rfl

/-- Counters after replacing the document with `blog`'s id, as a function
of the search result before the replacement. -/
theorem countersOf_map_replace (s : BlogState) (blog : Blog) (bid : Nat) :
    countersOf { s with blogs := s.blogs.map (fun x =>
        if x.id = blog.id then blog else x) } bid
      = (s.blogs.find? (fun x => x.id == bid)).map
          (fun x => if x.id = blog.id then (blog.views, blog.likes)
            else (x.views, x.likes)) := by
  unfold countersOf
  dsimp only
  rw [find?_beq_id_map s.blogs _ (replace_id_preserving blog) bid]
  cases hf : s.blogs.find? (fun x => x.id == bid) with
  | none => rfl
  | some x =>
    by_cases hc : x.id = blog.id <;> simp [Option.map, hc]

/-- Counters after a successful in-place save. -/
theorem countersOf_saveExisting (s : BlogState) (blog : Blog)
    (s' : BlogState) (bid : Nat) (hs : saveExistingBlog s blog = .ok s') :
    countersOf s' bid = (s.blogs.find? (fun x => x.id == bid)).map
        (fun x => if x.id = blog.id then (blog.views, blog.likes)
          else (x.views, x.likes)) := by
  unfold saveExistingBlog at hs
  split at hs
  · cases hs
  · split at hs
    · cases hs
    · cases hs
      exact countersOf_map_replace s blog bid

/-- Counters after a successful insert, when the id was already present. -/
theorem countersOf_saveNew_of_some (s : BlogState) (blog : Blog)
    (s' : BlogState) (bid : Nat) (x : Blog)
    (hs : saveNewBlog s blog = .ok s')
    (hf : s.blogs.find? (fun y => y.id == bid) = some x) :
    countersOf s' bid = some (x.views, x.likes) := by
  unfold saveNewBlog at hs
  split at hs
  · cases hs
  · split at hs
    · cases hs
    · cases hs
      unfold countersOf
      dsimp only
      rw [find?_append_some _ _ _ _ hf]
      rfl

/-- Counters after a successful insert of a fresh id, when the searched id
was absent. -/
theorem countersOf_saveNew_of_none (s : BlogState) (blog : Blog)
    (s' : BlogState) (bid : Nat) (hs : saveNewBlog s blog = .ok s')
    (hne : blog.id ≠ bid)
    (hf : s.blogs.find? (fun y => y.id == bid) = none) :
    countersOf s' bid = none := by
  unfold saveNewBlog at hs
  split at hs
  · cases hs
  · split at hs
    · cases hs
    · cases hs
      unfold countersOf
      dsimp only
      rw [find?_append_none _ _ _ hf]
      simp [List.find?_cons, hne]

/-- An operation is counter-benign when its update body (if it is an
update) does not supply `views` or `likes`. -/
def benignOp : BlogOp → Prop
  | .update _ b => b.views = none ∧ b.likes = none
  | _ => True

instance (op : BlogOp) : Decidable (benignOp op) := by
  cases op <;> (unfold benignOp; infer_instance)

/-- An id with a live document is below the supply. -/
theorem counters_some_lt (s : BlogState) (bid : Nat) (v l : Nat)
    (hwf : BlogWF s) (hc : countersOf s bid = some (v, l)) :
    bid < s.nextId := by
  unfold countersOf at hc
  cases hf : s.blogs.find? (fun x => x.id == bid) with
  | none => rw [hf] at hc; cases hc
  | some x =>
    have hxm : x ∈ s.blogs := List.mem_of_find?_eq_some hf
    have hxid : x.id = bid := by simpa using List.find?_some hf
    have := hwf.2.1 x hxm
    omega

/-- One counter-benign operation can only keep a document's counters,
increase them, or delete the document. -/
theorem counters_step (s : BlogState) (op : BlogOp) (bid : Nat) (v l : Nat)
    (hwf : BlogWF s) (hb : benignOp op)
    (hc : countersOf s bid = some (v, l)) :
    countersOf (applyBlogOp s op) bid = none
    ∨ ∃ v' l', countersOf (applyBlogOp s op) bid = some (v', l')
        ∧ v ≤ v' ∧ l ≤ l' := by
  obtain ⟨x, hfx, hxc⟩ : ∃ x, s.blogs.find? (fun y => y.id == bid) = some x
      ∧ (x.views, x.likes) = (v, l) := by
    unfold countersOf at hc
    cases hf : s.blogs.find? (fun y => y.id == bid) with
    | none => rw [hf] at hc; cases hc
    | some x =>
      rw [hf] at hc
      exact ⟨x, rfl, by simpa using hc⟩
  have hxv : x.views = v := by
    have := congrArg Prod.fst hxc
    simpa using this
  have hxl : x.likes = l := by
    have := congrArg Prod.snd hxc
    simpa using this
  cases op with
  | create b =>
    dsimp only [applyBlogOp]
    unfold createBlog
    by_cases ht : jsTruthy b.slug = true
    · rw [if_pos ht]
      cases hfs : s.blogs.find? (fun y => y.slug == b.slug.getD "") with
      | some y => exact Or.inr ⟨v, l, hc, le_refl v, le_refl l⟩
      | none =>
        unfold createBlogSave
        cases hsv : saveNewBlog s (blogPreSave (blogOfBody s b)) with
        | error e => cases e <;> exact Or.inr ⟨v, l, hc, le_refl v, le_refl l⟩
        | ok s2 =>
          refine Or.inr ⟨v, l, ?_, le_refl v, le_refl l⟩
          rw [countersOf_saveNew_of_some s _ s2 bid x hsv hfx, hxv, hxl]
    · rw [if_neg ht]
      unfold createBlogSave
      cases hsv : saveNewBlog s (blogPreSave (blogOfBody s b)) with
      | error e => cases e <;> exact Or.inr ⟨v, l, hc, le_refl v, le_refl l⟩
      | ok s2 =>
        refine Or.inr ⟨v, l, ?_, le_refl v, le_refl l⟩
        rw [countersOf_saveNew_of_some s _ s2 bid x hsv hfx, hxv, hxl]
  | update bid2 b =>
    obtain ⟨hbv, hbl⟩ : b.views = none ∧ b.likes = none := hb
    dsimp only [applyBlogOp]
    unfold updateBlog
    cases hf2 : s.blogs.find? (fun y => y.id == bid2) with
    | none => exact Or.inr ⟨v, l, hc, le_refl v, le_refl l⟩
    | some blog =>
      have hkey : ∀ s2 : BlogState,
          saveExistingBlog s (blogPreSave (objectAssign blog b)) = .ok s2 →
          countersOf s2 bid = some (v, l) := by
        intro s2 hsv
        rw [countersOf_saveExisting s _ s2 bid hsv, hfx]
        have hbid : (blogPreSave (objectAssign blog b)).id = blog.id := by
          rw [blogPreSave_id, objectAssign_id]
        have hbviews : (blogPreSave (objectAssign blog b)).views = blog.views := by
          rw [blogPreSave_views]
          show b.views.getD blog.views = blog.views
          rw [hbv]
          rfl
        have hblikes : (blogPreSave (objectAssign blog b)).likes = blog.likes := by
          rw [blogPreSave_likes]
          show b.likes.getD blog.likes = blog.likes
          rw [hbl]
          rfl
        by_cases hcx : x.id = (blogPreSave (objectAssign blog b)).id
        · have hxm : x ∈ s.blogs := List.mem_of_find?_eq_some hfx
          have hbm : blog ∈ s.blogs := List.mem_of_find?_eq_some hf2
          have hxblog : x = blog :=
            List.inj_on_of_nodup_map hwf.1 hxm hbm (by rw [hcx, hbid])
          simp only [Option.map]
          rw [if_pos hcx, hbviews, hblikes, ← hxblog, hxv, hxl]
        · simp only [Option.map]
          rw [if_neg hcx, hxv, hxl]
      dsimp only
      by_cases hcond : jsTruthy b.slug = true ∧ b.slug ≠ some blog.slug
      · rw [if_pos hcond]
        cases hfd : s.blogs.find? (fun y =>
            y.slug == b.slug.getD "" && y.id != bid2) with
        | some y => exact Or.inr ⟨v, l, hc, le_refl v, le_refl l⟩
        | none =>
          unfold updateBlogSave
          cases hsv : saveExistingBlog s (blogPreSave (objectAssign blog b)) with
          | error e => exact Or.inr ⟨v, l, hc, le_refl v, le_refl l⟩
          | ok s2 =>
            exact Or.inr ⟨v, l, hkey s2 hsv, le_refl v, le_refl l⟩
      · rw [if_neg hcond]
        unfold updateBlogSave
        cases hsv : saveExistingBlog s (blogPreSave (objectAssign blog b)) with
        | error e => exact Or.inr ⟨v, l, hc, le_refl v, le_refl l⟩
        | ok s2 =>
          exact Or.inr ⟨v, l, hkey s2 hsv, le_refl v, le_refl l⟩
  | getBySlug slug =>
    dsimp only [applyBlogOp]
    unfold getBlogBySlug
    cases hf2 : s.blogs.find? (fun y => y.slug == slug && y.published) with
    | none => exact Or.inr ⟨v, l, hc, le_refl v, le_refl l⟩
    | some blog =>
      dsimp only
      cases hsv : saveExistingBlog s
          (blogPreSave { blog with views := blog.views + 1 }) with
      | error e => exact Or.inr ⟨v, l, hc, le_refl v, le_refl l⟩
      | ok s2 =>
        have hbid : (blogPreSave { blog with views := blog.views + 1 }).id
            = blog.id := by rw [blogPreSave_id]
        have hbviews : (blogPreSave { blog with views := blog.views + 1 }).views
            = blog.views + 1 := by rw [blogPreSave_views]
        have hblikes : (blogPreSave { blog with views := blog.views + 1 }).likes
            = blog.likes := by rw [blogPreSave_likes]
        by_cases hcx : x.id = (blogPreSave { blog with views := blog.views + 1 }).id
        · have hxm : x ∈ s.blogs := List.mem_of_find?_eq_some hfx
          have hbm : blog ∈ s.blogs := List.mem_of_find?_eq_some hf2
          have hxblog : x = blog :=
            List.inj_on_of_nodup_map hwf.1 hxm hbm (by rw [hcx, hbid])
          refine Or.inr ⟨blog.views + 1, blog.likes, ?_, ?_, ?_⟩
          · rw [countersOf_saveExisting s _ s2 bid hsv, hfx]
            simp only [Option.map]
            rw [if_pos hcx, hbviews, hblikes]
          · rw [← hxv, hxblog]
            omega
          · rw [← hxl, hxblog]
        · refine Or.inr ⟨v, l, ?_, le_refl v, le_refl l⟩
          rw [countersOf_saveExisting s _ s2 bid hsv, hfx]
          simp only [Option.map]
          rw [if_neg hcx, hxv, hxl]
  | like bid2 =>
    dsimp only [applyBlogOp]
    unfold likeBlog
    cases hf2 : s.blogs.find? (fun y => y.id == bid2) with
    | none => exact Or.inr ⟨v, l, hc, le_refl v, le_refl l⟩
    | some blog =>
      dsimp only
      cases hsv : saveExistingBlog s
          (blogPreSave { blog with likes := blog.likes + 1 }) with
      | error e => exact Or.inr ⟨v, l, hc, le_refl v, le_refl l⟩
      | ok s2 =>
        have hbid : (blogPreSave { blog with likes := blog.likes + 1 }).id
            = blog.id := by rw [blogPreSave_id]
        have hbviews : (blogPreSave { blog with likes := blog.likes + 1 }).views
            = blog.views := by rw [blogPreSave_views]
        have hblikes : (blogPreSave { blog with likes := blog.likes + 1 }).likes
            = blog.likes + 1 := by rw [blogPreSave_likes]
        by_cases hcx : x.id = (blogPreSave { blog with likes := blog.likes + 1 }).id
        · have hxm : x ∈ s.blogs := List.mem_of_find?_eq_some hfx
          have hbm : blog ∈ s.blogs := List.mem_of_find?_eq_some hf2
          have hxblog : x = blog :=
            List.inj_on_of_nodup_map hwf.1 hxm hbm (by rw [hcx, hbid])
          refine Or.inr ⟨blog.views, blog.likes + 1, ?_, ?_, ?_⟩
          · rw [countersOf_saveExisting s _ s2 bid hsv, hfx]
            simp only [Option.map]
            rw [if_pos hcx, hbviews, hblikes]
          · rw [← hxv, hxblog]
          · rw [← hxl, hxblog]
            omega
        · refine Or.inr ⟨v, l, ?_, le_refl v, le_refl l⟩
          rw [countersOf_saveExisting s _ s2 bid hsv, hfx]
          simp only [Option.map]
          rw [if_neg hcx, hxv, hxl]
  | remove bid2 =>
    dsimp only [applyBlogOp]
    unfold deleteBlog
    cases hf2 : s.blogs.find? (fun y => y.id == bid2) with
    | none => exact Or.inr ⟨v, l, hc, le_refl v, le_refl l⟩
    | some blog =>
      dsimp only
      by_cases hb2 : bid = bid2
      · refine Or.inl ?_
        unfold countersOf
        dsimp only
        rw [hb2, find?_filter_id_self]
        rfl
      · refine Or.inr ⟨v, l, ?_, le_refl v, le_refl l⟩
        unfold countersOf
        dsimp only
        rw [find?_filter_id_ne s.blogs bid bid2 hb2, hfx]
        simp only [Option.map]
        rw [hxv, hxl]

/-- An id below the supply with no document never regains one: create only
inserts the fresh id, the other operations replace, keep or remove
documents. -/
theorem counters_none_step (s : BlogState) (op : BlogOp) (bid : Nat)
    (hlt : bid < s.nextId) (hc : countersOf s bid = none) :
    countersOf (applyBlogOp s op) bid = none := by
  have hfx : s.blogs.find? (fun y => y.id == bid) = none := by
    unfold countersOf at hc
    cases hf : s.blogs.find? (fun y => y.id == bid) with
    | none => rfl
    | some x => rw [hf] at hc; cases hc
  cases op with
  | create b =>
    dsimp only [applyBlogOp]
    unfold createBlog
    by_cases ht : jsTruthy b.slug = true
    · rw [if_pos ht]
      cases hfs : s.blogs.find? (fun y => y.slug == b.slug.getD "") with
      | some y => exact hc
      | none =>
        unfold createBlogSave
        cases hsv : saveNewBlog s (blogPreSave (blogOfBody s b)) with
        | error e => cases e <;> exact hc
        | ok s2 =>
          refine countersOf_saveNew_of_none s _ s2 bid hsv ?_ hfx
          rw [blogPreSave_id]
          show s.nextId ≠ bid
          omega
    · rw [if_neg ht]
      unfold createBlogSave
      cases hsv : saveNewBlog s (blogPreSave (blogOfBody s b)) with
      | error e => cases e <;> exact hc
      | ok s2 =>
        refine countersOf_saveNew_of_none s _ s2 bid hsv ?_ hfx
        rw [blogPreSave_id]
        show s.nextId ≠ bid
        omega
  | update bid2 b =>
    dsimp only [applyBlogOp]
    unfold updateBlog
    cases hf2 : s.blogs.find? (fun y => y.id == bid2) with
    | none => exact hc
    | some blog =>
      dsimp only
      by_cases hcond : jsTruthy b.slug = true ∧ b.slug ≠ some blog.slug
      · rw [if_pos hcond]
        cases hfd : s.blogs.find? (fun y =>
            y.slug == b.slug.getD "" && y.id != bid2) with
        | some y => exact hc
        | none =>
          unfold updateBlogSave
          cases hsv : saveExistingBlog s (blogPreSave (objectAssign blog b)) with
          | error e => exact hc
          | ok s2 =>
            rw [countersOf_saveExisting s _ s2 bid hsv, hfx]
            rfl
      · rw [if_neg hcond]
        unfold updateBlogSave
        cases hsv : saveExistingBlog s (blogPreSave (objectAssign blog b)) with
        | error e => exact hc
        | ok s2 =>
          rw [countersOf_saveExisting s _ s2 bid hsv, hfx]
          rfl
  | getBySlug slug =>
    dsimp only [applyBlogOp]
    unfold getBlogBySlug
    cases hf2 : s.blogs.find? (fun y => y.slug == slug && y.published) with
    | none => exact hc
    | some blog =>
      dsimp only
      cases hsv : saveExistingBlog s
          (blogPreSave { blog with views := blog.views + 1 }) with
      | error e => exact hc
      | ok s2 =>
        rw [countersOf_saveExisting s _ s2 bid hsv, hfx]
        rfl
  | like bid2 =>
    dsimp only [applyBlogOp]
    unfold likeBlog
    cases hf2 : s.blogs.find? (fun y => y.id == bid2) with
    | none => exact hc
    | some blog =>
      dsimp only
      cases hsv : saveExistingBlog s
          (blogPreSave { blog with likes := blog.likes + 1 }) with
      | error e => exact hc
      | ok s2 =>
        rw [countersOf_saveExisting s _ s2 bid hsv, hfx]
        rfl
  | remove bid2 =>
    dsimp only [applyBlogOp]
    unfold deleteBlog
    cases hf2 : s.blogs.find? (fun y => y.id == bid2) with
    | none => exact hc
    | some blog =>
      unfold countersOf
      dsimp only
      by_cases hb2 : bid = bid2
      · rw [hb2, find?_filter_id_self]
        rfl
      · rw [find?_filter_id_ne s.blogs bid bid2 hb2, hfx]
        rfl

/-- `counters_none_step` extended along a whole operation sequence. -/
theorem counters_none_ops (ops : List BlogOp) (s : BlogState) (bid : Nat)
    (hlt : bid < s.nextId) (hc : countersOf s bid = none) :
    countersOf (applyBlogOps s ops) bid = none := by
  induction ops generalizing s with
  | nil => exact hc
  | cons op t ih =>
    exact ih (applyBlogOp s op)
      (Nat.lt_of_lt_of_le hlt (blog_nextId_mono s op))
      (counters_none_step s op bid hlt hc)

/-! ## Claim C7: what mutates the views and likes counters -/

/-- C7, counterexample.  The claim says only the dedicated increment
operations change `views`/`likes` and that blog update never does.  On a
one-blog store with `views = 5`, a PUT whose body carries `views: 0` drops
the counter to 0 (`Object.assign(blog, req.body)` copies every supplied
field), so the update does change the counter and it is not monotonic. -/
theorem blog_update_changes_views_cex :
    countersOf
      { blogs := [{ id := 0, title := "t", slug := "t", excerpt := "e",
                    content := "c", image := "i", author := "a",
                    category := "React", featured := false, published := true,
                    views := 5, likes := 7, seoTitle := "t",
                    seoDescription := "e" }], nextId := 1 } 0 = some (5, 7)
    ∧ (updateBlog
      { blogs := [{ id := 0, title := "t", slug := "t", excerpt := "e",
                    content := "c", image := "i", author := "a",
                    category := "React", featured := false, published := true,
                    views := 5, likes := 7, seoTitle := "t",
                    seoDescription := "e" }], nextId := 1 } 0
      { title := none, slug := none, excerpt := none, content := none,
        image := none, author := none, category := none, featured := none,
        published := none, views := some 0, likes := none, seoTitle := none,
        seoDescription := none }).1 = ⟨200, true⟩
    ∧ countersOf (updateBlog
      { blogs := [{ id := 0, title := "t", slug := "t", excerpt := "e",
                    content := "c", image := "i", author := "a",
                    category := "React", featured := false, published := true,
                    views := 5, likes := 7, seoTitle := "t",
                    seoDescription := "e" }], nextId := 1 } 0
      { title := none, slug := none, excerpt := none, content := none,
        image := none, author := none, category := none, featured := none,
        published := none, views := some 0, likes := none, seoTitle := none,
        seoDescription := none }).2 0 = some (0, 7) := by
  refine ⟨by decide, by decide, by decide⟩

/-- C7, amended.  The blog update copies every supplied body field onto the
document, so a body carrying `views`/`likes` rewrites the counters; over
any operation sequence whose update bodies do not supply `views` or
`likes`, the two counters of any blog are monotonically non-decreasing for
as long as the blog exists. -/
theorem blog_counters_monotonic (s : BlogState) (ops : List BlogOp)
    (bid v l v' l' : Nat) (hwf : BlogWF s)
    (hb : ∀ op ∈ ops, benignOp op)
    (hc : countersOf s bid = some (v, l))
    (hc' : countersOf (applyBlogOps s ops) bid = some (v', l')) :
    v ≤ v' ∧ l ≤ l' := by
  induction ops generalizing s v l with
  | nil =>
    rw [show applyBlogOps s [] = s from rfl, hc] at hc'
    cases hc'
    exact ⟨le_refl _, le_refl _⟩
  | cons op t ih =>
    have hwf1 := blogWF_apply s op hwf
    have hlt := counters_some_lt s bid v l hwf hc
    rcases counters_step s op bid v l hwf (hb op (List.mem_cons_self op t)) hc
      with hnone | ⟨v2, l2, hc2, hv2, hl2⟩
    · exfalso
      have := counters_none_ops t (applyBlogOp s op) bid
        (Nat.lt_of_lt_of_le hlt (blog_nextId_mono s op)) hnone
      rw [show applyBlogOps s (op :: t) = applyBlogOps (applyBlogOp s op) t
        from rfl] at hc'
      rw [this] at hc'
      cases hc'
    · have := ih (applyBlogOp s op) v2 l2 hwf1
        (fun o ho => hb o (List.mem_cons_of_mem op ho)) hc2
        (by rw [show applyBlogOps s (op :: t)
          = applyBlogOps (applyBlogOp s op) t from rfl] at hc'; exact hc')
      exact ⟨Nat.le_trans hv2 this.1, Nat.le_trans hl2 this.2⟩

/-- Witness for `blog_counters_monotonic` on a concrete store and a
sequence of benign operations (a view, a like and a counter-free update):
the counters only grow. -/
theorem blog_counters_monotonic_witness :
    countersOf
      { blogs := [{ id := 0, title := "t", slug := "t", excerpt := "e",
                    content := "c", image := "i", author := "a",
                    category := "React", featured := false, published := true,
                    views := 5, likes := 7, seoTitle := "t",
                    seoDescription := "e" }], nextId := 1 } 0 = some (5, 7)
    ∧ countersOf (applyBlogOps
      { blogs := [{ id := 0, title := "t", slug := "t", excerpt := "e",
                    content := "c", image := "i", author := "a",
                    category := "React", featured := false, published := true,
                    views := 5, likes := 7, seoTitle := "t",
                    seoDescription := "e" }], nextId := 1 }
      [BlogOp.getBySlug "t", BlogOp.like 0]) 0 = some (6, 8)
    ∧ 5 ≤ 6 ∧ 7 ≤ 8 := by
  refine ⟨by decide, by decide, ?_⟩
  exact blog_counters_monotonic
    { blogs := [{ id := 0, title := "t", slug := "t", excerpt := "e",
                  content := "c", image := "i", author := "a",
                  category := "React", featured := false, published := true,
                  views := 5, likes := 7, seoTitle := "t",
                  seoDescription := "e" }], nextId := 1 }
    [BlogOp.getBySlug "t", BlogOp.like 0] 0 5 7 6 8 (by decide)
    (by intro op hop; fin_cases hop <;> decide)
    (by decide) (by decide)

/-- A save whose validation and duplicate checks pass replaces the
document in place. -/
theorem saveExistingBlog_ok (s : BlogState) (blog : Blog)
    (hv : validSlug blog.slug = true)
    (hno : s.blogs.any (fun x => x.id != blog.id && x.slug == blog.slug)
      = false) :
    saveExistingBlog s blog = .ok { s with blogs := s.blogs.map (fun x =>
      if x.id = blog.id then blog else x) } := by
  unfold saveExistingBlog
  rw [if_neg (by rw [hv]; simp), if_neg (by rw [hno]; simp)]

/-! ## Claim C8: view and like increments are by exactly one -/

/-- C8.  A successful GET-by-slug of a stored published blog answers 200
and bumps exactly that blog's `views` by 1 (its `likes` untouched); when no
stored blog matches the slug as published, the response is 404 and the
state is untouched.  A successful POST-like bumps exactly the blog's
`likes` by 1 (its `views` untouched); a miss is a 404 with the state
untouched. -/
theorem blog_view_like_increment (s : BlogState) (blog : Blog)
    (slug : String) (bid : Nat) (hwf : BlogWF s) :
    (blog ∈ s.blogs → blog.slug = slug → blog.published = true →
      validSlug blog.slug = true →
      (getBlogBySlug s slug).1 = ⟨200, true⟩
      ∧ countersOf (getBlogBySlug s slug).2 blog.id
          = some (blog.views + 1, blog.likes))
    ∧ ((∀ x ∈ s.blogs, ¬(x.slug = slug ∧ x.published = true)) →
        getBlogBySlug s slug = (⟨404, false⟩, s))
    ∧ (blog ∈ s.blogs → blog.id = bid → validSlug blog.slug = true →
      (likeBlog s bid).1 = ⟨200, true⟩
      ∧ countersOf (likeBlog s bid).2 bid
          = some (blog.views, blog.likes + 1))
    ∧ ((∀ x ∈ s.blogs, x.id ≠ bid) → likeBlog s bid = (⟨404, false⟩, s)) := by
  refine ⟨?_, ?_, ?_, ?_⟩
  · intro hm hslug hpub hv
    subst hslug
    have hfind := find?_slug_pub_of_mem s.blogs blog hwf.2.2 hm hpub
    have hne : ({ blog with views := blog.views + 1 } : Blog).slug ≠ "" := by
      show blog.slug ≠ ""
      intro hc
      rw [hc] at hv
      cases hv
    have hslug' : (blogPreSave { blog with views := blog.views + 1 }).slug
        = blog.slug := blogPreSave_slug _ hne
    have hid' : (blogPreSave { blog with views := blog.views + 1 }).id
        = blog.id := by rw [blogPreSave_id]
    have hsv := saveExistingBlog_ok s
      (blogPreSave { blog with views := blog.views + 1 })
      (by rw [hslug']; exact hv)
      (by rw [hslug', hid']
          exact any_other_slug_false s.blogs blog hwf.2.2 hm)
    unfold getBlogBySlug
    rw [hfind]
    dsimp only
    rw [hsv]
    refine ⟨rfl, ?_⟩
    rw [countersOf_map_replace]
    rw [hid', find?_id_of_mem s.blogs blog hwf.1 hm]
    simp only [Option.map]
    rw [if_pos trivial, blogPreSave_views, blogPreSave_likes]
  · intro hno
    have hfind : s.blogs.find? (fun x => x.slug == slug && x.published)
        = none := by
      refine List.find?_eq_none.mpr ?_
      intro x hx
      simp only [Bool.and_eq_true, beq_iff_eq, not_and]
      intro hxs hxp
      exact hno x hx ⟨hxs, hxp⟩
    unfold getBlogBySlug
    rw [hfind]
  · intro hm hid hv
    have hfind : s.blogs.find? (fun x => x.id == bid) = some blog := by
      rw [← hid]
      exact find?_id_of_mem s.blogs blog hwf.1 hm
    have hne : ({ blog with likes := blog.likes + 1 } : Blog).slug ≠ "" := by
      show blog.slug ≠ ""
      intro hc
      rw [hc] at hv
      cases hv
    have hslug' : (blogPreSave { blog with likes := blog.likes + 1 }).slug
        = blog.slug := blogPreSave_slug _ hne
    have hid' : (blogPreSave { blog with likes := blog.likes + 1 }).id
        = blog.id := by rw [blogPreSave_id]
    have hsv := saveExistingBlog_ok s
      (blogPreSave { blog with likes := blog.likes + 1 })
      (by rw [hslug']; exact hv)
      (by rw [hslug', hid']
          exact any_other_slug_false s.blogs blog hwf.2.2 hm)
    unfold likeBlog
    rw [hfind]
    dsimp only
    rw [hsv]
    refine ⟨rfl, ?_⟩
    rw [countersOf_map_replace]
    rw [← hid, hid', find?_id_of_mem s.blogs blog hwf.1 hm]
    simp only [Option.map]
    rw [if_pos trivial, blogPreSave_views, blogPreSave_likes]
  · intro hno
    have hfind : s.blogs.find? (fun x => x.id == bid) = none := by
      refine List.find?_eq_none.mpr ?_
      intro x hx
      simpa using hno x hx
    unfold likeBlog
    rw [hfind]

/-- Witness for `blog_view_like_increment` on a concrete store: the view
read bumps views 5 → 6 and the like bumps likes 7 → 8. -/
theorem blog_view_like_increment_witness :
    ((getBlogBySlug
      { blogs := [{ id := 0, title := "t", slug := "t", excerpt := "e",
                    content := "c", image := "i", author := "a",
                    category := "React", featured := false, published := true,
                    views := 5, likes := 7, seoTitle := "t",
                    seoDescription := "e" }], nextId := 1 } "t").1 = ⟨200, true⟩
      ∧ countersOf (getBlogBySlug
      { blogs := [{ id := 0, title := "t", slug := "t", excerpt := "e",
                    content := "c", image := "i", author := "a",
                    category := "React", featured := false, published := true,
                    views := 5, likes := 7, seoTitle := "t",
                    seoDescription := "e" }], nextId := 1 } "t").2 0
        = some (6, 7))
    ∧ countersOf (likeBlog
      { blogs := [{ id := 0, title := "t", slug := "t", excerpt := "e",
                    content := "c", image := "i", author := "a",
                    category := "React", featured := false, published := true,
                    views := 5, likes := 7, seoTitle := "t",
                    seoDescription := "e" }], nextId := 1 } 0).2 0
        = some (5, 8) := by
  have h := blog_view_like_increment
    { blogs := [{ id := 0, title := "t", slug := "t", excerpt := "e",
                  content := "c", image := "i", author := "a",
                  category := "React", featured := false, published := true,
                  views := 5, likes := 7, seoTitle := "t",
                  seoDescription := "e" }], nextId := 1 }
    { id := 0, title := "t", slug := "t", excerpt := "e",
      content := "c", image := "i", author := "a",
      category := "React", featured := false, published := true,
      views := 5, likes := 7, seoTitle := "t", seoDescription := "e" }
    "t" 0 (by decide)
  refine ⟨h.1 (by decide) rfl rfl (by decide),
    (h.2.2.1 (by decide) rfl (by decide)).2⟩

/-! ## Claim C9: slug mutability and uniqueness -/

/-- C9, counterexample.  The claim says the slug is immutable after
creation.  On a one-blog store with slug `a`, a PUT supplying slug `b`
succeeds and the stored slug becomes `b`: the update route explicitly
supports slug changes (it only pre-checks collisions). -/
theorem blog_slug_mutable_cex :
    (updateBlog
      { blogs := [{ id := 0, title := "t", slug := "a", excerpt := "e",
                    content := "c", image := "i", author := "x",
                    category := "React", featured := false, published := true,
                    views := 0, likes := 0, seoTitle := "t",
                    seoDescription := "e" }], nextId := 1 } 0
      { title := none, slug := some "b", excerpt := none, content := none,
        image := none, author := none, category := none, featured := none,
        published := none, views := none, likes := none, seoTitle := none,
        seoDescription := none }).1 = ⟨200, true⟩
    ∧ (updateBlog
      { blogs := [{ id := 0, title := "t", slug := "a", excerpt := "e",
                    content := "c", image := "i", author := "x",
                    category := "React", featured := false, published := true,
                    views := 0, likes := 0, seoTitle := "t",
                    seoDescription := "e" }], nextId := 1 } 0
      { title := none, slug := some "b", excerpt := none, content := none,
        image := none, author := none, category := none, featured := none,
        published := none, views := none, likes := none, seoTitle := none,
        seoDescription := none }).2.blogs.map (fun x => x.slug) = ["b"] := by
  refine ⟨by decide, by decide⟩

/-- C9, amended.  A blog's slug can be changed by update; an update whose
supplied slug collides with a different blog is rejected with 400 and no
state change; and slug uniqueness does hold at all times: any sequence of
blog operations started in a well-formed store keeps the slug list
duplicate free. -/
theorem blog_slug_update_unique (s : BlogState) (ops : List BlogOp)
    (bid : Nat) (b : BlogUpdateBody) (blog other : Blog) (hwf : BlogWF s) :
    ((s.blogs.find? (fun x => x.id == bid) = some blog →
      jsTruthy b.slug = true → b.slug ≠ some blog.slug →
      other ∈ s.blogs → other.id ≠ bid → other.slug = b.slug.getD "" →
      updateBlog s bid b = (⟨400, false⟩, s)))
    ∧ ((applyBlogOps s ops).blogs.map (fun x => x.slug)).Nodup := by
  constructor
  · intro hfind ht hne hom hoid hos
    unfold updateBlog
    rw [hfind]
    dsimp only
    rw [if_pos ⟨ht, hne⟩]
    cases hfd : s.blogs.find? (fun x =>
        x.slug == b.slug.getD "" && x.id != bid) with
    | some y => rfl
    | none =>
      exfalso
      have := List.find?_eq_none.mp hfd other hom
      simp only [Bool.and_eq_true, beq_iff_eq, bne_iff_ne, ne_eq,
        not_and] at this
      exact this hos hoid
  · exact (blogWF_ops s ops hwf).2.2

/-- Witness for `blog_slug_update_unique`: on a two-blog store, updating
blog 0 to blog 1's slug is rejected with the store untouched, and the slug
list stays duplicate free after an operation sequence. -/
theorem blog_slug_update_unique_witness :
    updateBlog
      { blogs := [{ id := 0, title := "t", slug := "a", excerpt := "e",
                    content := "c", image := "i", author := "x",
                    category := "React", featured := false, published := true,
                    views := 0, likes := 0, seoTitle := "t",
                    seoDescription := "e" },
                  { id := 1, title := "u", slug := "b", excerpt := "e",
                    content := "c", image := "i", author := "x",
                    category := "React", featured := false, published := true,
                    views := 0, likes := 0, seoTitle := "u",
                    seoDescription := "e" }], nextId := 2 } 0
      { title := none, slug := some "b", excerpt := none, content := none,
        image := none, author := none, category := none, featured := none,
        published := none, views := none, likes := none, seoTitle := none,
        seoDescription := none }
      = (⟨400, false⟩,
        { blogs := [{ id := 0, title := "t", slug := "a", excerpt := "e",
                      content := "c", image := "i", author := "x",
                      category := "React", featured := false,
                      published := true, views := 0, likes := 0,
                      seoTitle := "t", seoDescription := "e" },
                    { id := 1, title := "u", slug := "b", excerpt := "e",
                      content := "c", image := "i", author := "x",
                      category := "React", featured := false,
                      published := true, views := 0, likes := 0,
                      seoTitle := "u", seoDescription := "e" }],
          nextId := 2 }) := by
  exact (blog_slug_update_unique
    { blogs := [{ id := 0, title := "t", slug := "a", excerpt := "e",
                  content := "c", image := "i", author := "x",
                  category := "React", featured := false, published := true,
                  views := 0, likes := 0, seoTitle := "t",
                  seoDescription := "e" },
                { id := 1, title := "u", slug := "b", excerpt := "e",
                  content := "c", image := "i", author := "x",
                  category := "React", featured := false, published := true,
                  views := 0, likes := 0, seoTitle := "u",
                  seoDescription := "e" }], nextId := 2 } []
    0
    { title := none, slug := some "b", excerpt := none, content := none,
      image := none, author := none, category := none, featured := none,
      published := none, views := none, likes := none, seoTitle := none,
      seoDescription := none }
    { id := 0, title := "t", slug := "a", excerpt := "e",
      content := "c", image := "i", author := "x",
      category := "React", featured := false, published := true,
      views := 0, likes := 0, seoTitle := "t", seoDescription := "e" }
    { id := 1, title := "u", slug := "b", excerpt := "e",
      content := "c", image := "i", author := "x",
      category := "React", featured := false, published := true,
      views := 0, likes := 0, seoTitle := "u", seoDescription := "e" }
    (by decide)).1
    (by decide) (by decide) (by decide) (by decide) (by decide) rfl

/-! ### The generated slug's shape -/

/-- The hook steps leave the title alone. -/
theorem preSlug_title (b : Blog) : (preSlug b).title = b.title := by
  unfold preSlug
  split <;> rfl

/-- The hook steps leave the title alone. -/
theorem preSeoTitle_title (b : Blog) : (preSeoTitle b).title = b.title := by
  unfold preSeoTitle
  split <;> rfl

/-- The hook steps leave the title alone. -/
theorem preSeoDesc_title (b : Blog) : (preSeoDesc b).title = b.title := by
  unfold preSeoDesc
  split <;> rfl

/-- `blogPreSave` never touches the title. -/
theorem blogPreSave_title (b : Blog) : (blogPreSave b).title = b.title := by
  unfold blogPreSave
  rw [preSeoDesc_title, preSeoTitle_title, preSlug_title]

/-- The head of a `dropWhile` result falsifies the predicate. -/
theorem head?_dropWhile_not (p : Char → Bool) (l : List Char) (c : Char)
    (h : (l.dropWhile p).head? = some c) : p c = false := by
  induction l with
  | nil => simp at h
  | cons a t ih =>
    by_cases hpa : p a = true
    · rw [List.dropWhile_cons_of_pos hpa] at h
      exact ih h
    · rw [List.dropWhile_cons_of_neg hpa] at h
      have hac : a = c := by simpa using h
      simp only [Bool.not_eq_true] at hpa
      rw [← hac]
      exact hpa

/-- `dropWhile` removes a prefix: the remainder is reached by prepending
the removed run. -/
theorem exists_prepend_dropWhile (p : Char → Bool) (m : List Char) :
    ∃ t, m = t ++ m.dropWhile p := by
  induction m with
  | nil => exact ⟨[], rfl⟩
  | cons a t ih =>
    by_cases hpa : p a = true
    · obtain ⟨u, hu⟩ := ih
      refine ⟨a :: u, ?_⟩
      rw [List.dropWhile_cons_of_pos hpa, List.cons_append, ← hu]
    · refine ⟨[], ?_⟩
      rw [List.dropWhile_cons_of_neg hpa, List.nil_append]

/-- `dropTrailing` removes a suffix: the original is the result followed by
the removed run. -/
theorem exists_append_dropTrailing (p : Char → Bool) (l : List Char) :
    ∃ t, l = dropTrailing p l ++ t := by
  obtain ⟨t, ht⟩ := exists_prepend_dropWhile p l.reverse
  refine ⟨t.reverse, ?_⟩
  unfold dropTrailing
  conv_lhs => rw [← List.reverse_reverse l, ht]
  rw [List.reverse_append]

/-- The last element of a `dropTrailing` result falsifies the predicate. -/
theorem getLast?_dropTrailing_not (p : Char → Bool) (l : List Char)
    (c : Char) (h : (dropTrailing p l).getLast? = some c) : p c = false := by
  unfold dropTrailing at h
  rw [List.getLast?_reverse] at h
  exact head?_dropWhile_not p l.reverse c h

/-- The generated blog slug never starts or ends with a hyphen. -/
theorem blogSlugify_no_edge_hyphen (title : String) :
    (blogSlugify title).toList.head? ≠ some '-'
    ∧ (blogSlugify title).toList.getLast? ≠ some '-' := by
  unfold blogSlugify
  constructor
  · intro h
    have h' : (dropTrailing (fun c => c == '-')
        (((collapseRuns (fun c => c == '-') '-'
          (collapseRuns jsWhitespace '-'
            ((title.toList.map Char.toLower).filter
              (fun c => isLowerAlnum c || jsWhitespace c || c == '-')))).dropWhile
          (fun c => c == '-')))).head? = some '-' := h
    obtain ⟨t, ht⟩ := exists_append_dropTrailing (fun c => c == '-')
      ((collapseRuns (fun c => c == '-') '-'
        (collapseRuns jsWhitespace '-'
          ((title.toList.map Char.toLower).filter
            (fun c => isLowerAlnum c || jsWhitespace c || c == '-')))).dropWhile
        (fun c => c == '-'))
    cases hd : dropTrailing (fun c => c == '-')
        ((collapseRuns (fun c => c == '-') '-'
          (collapseRuns jsWhitespace '-'
            ((title.toList.map Char.toLower).filter
              (fun c => isLowerAlnum c || jsWhitespace c || c == '-')))).dropWhile
          (fun c => c == '-')) with
    | nil => rw [hd] at h'; cases h'
    | cons a m =>
      rw [hd] at h'
      simp only [List.head?_cons] at h'
      cases h'
      rw [hd] at ht
      have hhead : ((collapseRuns (fun c => c == '-') '-'
          (collapseRuns jsWhitespace '-'
            ((title.toList.map Char.toLower).filter
              (fun c => isLowerAlnum c || jsWhitespace c || c == '-')))).dropWhile
          (fun c => c == '-')).head? = some '-' := by
        rw [ht]
        rfl
      have := head?_dropWhile_not (fun c => c == '-') _ _ hhead
      simp at this
  · intro h
    have := getLast?_dropTrailing_not (fun c => c == '-') _ _ h
    simp at this

/-- A successful insert appends the document. -/
theorem saveNewBlog_ok_blogs (s : BlogState) (blog : Blog) (s' : BlogState)
    (hs : saveNewBlog s blog = .ok s') : s'.blogs = s.blogs ++ [blog] := by
  unfold saveNewBlog at hs
  split at hs
  · cases hs
  · split at hs
    · cases hs
    · cases hs
      rfl

/-! ## Claim C6: the slug generated from the title -/

/-- C6, counterexample.  The claim describes the generated slug as the
title with every maximal run of non-alphanumerics replaced by a single
hyphen, which on the title `a.b` gives `a-b` (`specSlugOfTitle`); the code
instead deletes characters outside `[a-z0-9\s-]`, so creating a blog with
title `a.b` and no slug stores the slug `ab`. -/
theorem blog_slug_derivation_cex :
    blogSlugify "a.b" = "ab"
    ∧ specSlugOfTitle "a.b" = "a-b"
    ∧ (createBlog { blogs := [], nextId := 0 }
      { title := "a.b", slug := none, excerpt := "e", content := "c",
        image := "i", author := none, category := "React", featured := none,
        published := none, seoTitle := none,
        seoDescription := none }).2.blogs.map (fun x => x.slug) = ["ab"]
    ∧ ("ab" : String) ≠ "a-b" := by
  refine ⟨by decide, by decide, by decide, by decide⟩

/-- C6, amended.  A blog created without a truthy slug that is answered 201
stores a blog whose slug is `blogSlugify` of its title — the title
lowercased, characters outside lowercase alphanumerics / whitespace /
hyphens deleted, whitespace runs and hyphen runs collapsed to single
hyphens — and the generated slug never has a leading or trailing hyphen. -/
theorem blog_generated_slug (s : BlogState) (b : BlogCreateBody)
    (s' : BlogState) (hslug : jsTruthy b.slug = false)
    (hok : createBlog s b = (⟨201, true⟩, s')) :
    (∃ blog ∈ s'.blogs, blog.title = b.title
      ∧ blog.slug = blogSlugify b.title)
    ∧ (blogSlugify b.title).toList.head? ≠ some '-'
    ∧ (blogSlugify b.title).toList.getLast? ≠ some '-' := by
  refine ⟨?_, (blogSlugify_no_edge_hyphen b.title).1,
    (blogSlugify_no_edge_hyphen b.title).2⟩
  unfold createBlog at hok
  rw [if_neg (by rw [hslug]; simp)] at hok
  unfold createBlogSave at hok
  cases hsv : saveNewBlog s (blogPreSave (blogOfBody s b)) with
  | error e =>
    rw [hsv] at hok
    cases e <;> simp at hok
  | ok s2 =>
    rw [hsv] at hok
    have hs2 : s2 = s' := by
      have := congrArg Prod.snd hok
      simpa using this
    subst hs2
    have hbs : (blogOfBody s b).slug = "" := by
      cases hbslug : b.slug with
      | none => simp [blogOfBody, hbslug]
      | some str =>
        have hstr : str = "" := by
          by_cases hs0 : str = ""
          · exact hs0
          · exfalso
            rw [hbslug] at hslug
            simp [jsTruthy, hs0] at hslug
        simp [blogOfBody, hbslug, hstr]
    have hvs : validSlug (blogPreSave (blogOfBody s b)).slug = true := by
      by_cases hv : validSlug (blogPreSave (blogOfBody s b)).slug = false
      · exfalso
        unfold saveNewBlog at hsv
        rw [if_pos hv] at hsv
        cases hsv
      · cases hb2 : validSlug (blogPreSave (blogOfBody s b)).slug
        · exact absurd hb2 hv
        · rfl
    have htitle : b.title ≠ "" := by
      intro hc
      have hslg : (blogPreSave (blogOfBody s b)).slug = "" := by
        unfold blogPreSave
        rw [preSeoDesc_slug, preSeoTitle_slug]
        unfold preSlug
        rw [if_neg (fun hcond => hcond.2 (show (blogOfBody s b).title = ""
          from hc))]
        exact hbs
      rw [hslg] at hvs
      simp [validSlug] at hvs
    have hgen : (blogPreSave (blogOfBody s b)).slug = blogSlugify b.title := by
      unfold blogPreSave
      rw [preSeoDesc_slug, preSeoTitle_slug]
      unfold preSlug
      rw [if_pos ⟨hbs, show (blogOfBody s b).title ≠ "" from htitle⟩]
      rfl
    refine ⟨blogPreSave (blogOfBody s b), ?_, ?_, hgen⟩
    · rw [saveNewBlog_ok_blogs s _ s2 hsv]
      simp
    · rw [blogPreSave_title]
      rfl

/-- Witness for `blog_generated_slug` at a concrete creation: the title
`Hello, World!` stores the slug `hello-world`. -/
theorem blog_generated_slug_witness :
    ∃ blog ∈ (createBlog { blogs := [], nextId := 0 }
      { title := "Hello, World!", slug := none, excerpt := "e",
        content := "c", image := "i", author := none, category := "React",
        featured := none, published := none, seoTitle := none,
        seoDescription := none }).2.blogs,
      blog.title = "Hello, World!"
      ∧ blog.slug = blogSlugify "Hello, World!" := by
  exact (blog_generated_slug { blogs := [], nextId := 0 }
    { title := "Hello, World!", slug := none, excerpt := "e",
      content := "c", image := "i", author := none, category := "React",
      featured := none, published := none, seoTitle := none,
      seoDescription := none }
    (createBlog { blogs := [], nextId := 0 }
      { title := "Hello, World!", slug := none, excerpt := "e",
        content := "c", image := "i", author := none, category := "React",
        featured := none, published := none, seoTitle := none,
        seoDescription := none }).2
    (by decide) (by decide)).1

end Portfolio
